import Mathlib

set_option maxHeartbeats 1600000

/-!
Verification development for the normalization stage of the `le_xml`
pipeline (`src/parsers/normalize.py`).  The Python module walks an
in-memory tree produced by `xmltodict` (dictionaries, lists and scalar
leaves) and emits flat record sets for nine entity tables.  This file
gives a shallow embedding of that module: Python values are modelled by
the inductive `PyVal`, Python floats by `FVal` (finite values as exact
rationals, plus explicit NaN and signed infinities), exceptions by
`Except String`, and the module-level `_ID_COUNTERS` dictionary by an
explicitly threaded `Counters` state.
-/

namespace LeXml

/-- Model of the Python values that can appear in the parsed XML tree:
strings, numbers (finite numbers as exact rationals, NaN and signed
infinities kept as separate constructors), `None`, dictionaries
(insertion-ordered association lists, as `xmltodict` produces ordinary
insertion-ordered `dict`s) and lists. -/
inductive PyVal where
  | str (s : String)
  | num (q : ℚ)
  | nan
  | inf (pos : Bool)
  | none
  | dict (entries : List (String × PyVal))
  | list (items : List PyVal)

/-- Python truthiness for the modelled values: `None`, `""`, `0`, empty
containers are falsy; NaN and the infinities are truthy. -/
def truthy : PyVal → Bool
  | PyVal.none => false
  | PyVal.str s => if s = "" then false else true
  | PyVal.num q => if q = 0 then false else true
  | PyVal.nan => true
  | PyVal.inf _ => true
  | PyVal.dict d => if d.isEmpty then false else true
  | PyVal.list l => if l.isEmpty then false else true

/-- First-match lookup in a dictionary association list (Python `dict`s
have unique keys, so first match is the match). -/
def pyLookup : List (String × PyVal) → String → Option PyVal
  | [], _ => Option.none
  | (k, v) :: rest, key => if k = key then some v else pyLookup rest key

/-- Python `d.get(key)`: the stored value, or `None` when the key is
absent.  A stored `None` and an absent key are indistinguishable, as in
Python. -/
def pyDictGet (d : List (String × PyVal)) (key : String) : PyVal :=
  (pyLookup d key).getD PyVal.none

/-- Model of Python `str()` for the cases the pipeline exercises.  The
tree handed over by `xmltodict` holds only strings (and `None` for empty
elements), so the renderings of numbers, dictionaries and lists are
approximations of the CPython `repr` and no theorem below depends on
them. -/
def pyStr : PyVal → String
  | PyVal.str s => s
  | PyVal.none => "None"
  | PyVal.num q => toString q.num ++ (if q.den = 1 then ".0" else "/" ++ toString q.den)
  | PyVal.nan => "nan"
  | PyVal.inf b => if b then "inf" else "-inf"
  | PyVal.dict _ => "\x7bdict\x7d"
  | PyVal.list _ => "[list]"

/-- Model of `ensure_list` from the source: `None` becomes the empty
list, a list stays itself, anything else is wrapped in a singleton. -/
def ensure_list (obj : PyVal) : List PyVal :=
  match obj with
  | PyVal.none => []
  | PyVal.list l => l
  | v => [v]

/-- ASCII lowercase of a string (the sentinel tokens handled by the
source are ASCII, so `Char.toLower` matches Python `str.lower` on
them). -/
def lowerStr (s : String) : String := String.mk (s.data.map Char.toLower)

/-- Whether a character counts as whitespace for Python `str.strip()`
(the ASCII whitespace characters; the pipeline's data never carries the
further Unicode spaces Python would also strip). -/
def isPySpace (c : Char) : Bool :=
  c = ' ' ∨ c = '\t' ∨ c = '\n' ∨ c = '\r' ∨ c = '\x0b' ∨ c = '\x0c'

/-- Model of Python `str.strip()`: drop whitespace from both ends. -/
def pyStrip (s : String) : String :=
  String.mk (((s.data.dropWhile isPySpace).reverse.dropWhile isPySpace).reverse)

/-- Left-pad a natural number with zeros to the given width, modelling
Python format specifiers such as `{idx:02d}`. -/
def padZeros (w n : ℕ) : String :=
  let s := Nat.repr n
  String.mk (List.replicate (w - s.length) '0') ++ s

/-- Python `s.lstrip("@")`: drop every leading `@`. -/
def lstripAt (s : String) : String :=
  String.mk (s.data.dropWhile (fun c => c = '@'))

/-- Python `s.startswith("@")`. -/
def startsWithAt (s : String) : Bool :=
  match s.data with
  | '@' :: _ => true
  | _ => false

/-- Whether a character list begins with the given pattern. -/
def listStartsWith : List Char → List Char → Bool
  | [], _ => true
  | _ :: _, [] => false
  | p :: ps, c :: cs => if p = c then listStartsWith ps cs else false

/-- Whether a character list contains the given pattern as a contiguous
sub-sequence. -/
def listHasSub (pat : List Char) : List Char → Bool
  | [] => listStartsWith pat []
  | c :: cs => if listStartsWith pat (c :: cs) then true else listHasSub pat cs

/-- Python `sub in s` for strings: substring containment. -/
def pyInStr (sub s : String) : Bool := listHasSub sub.data s.data

/-!  The standard `Rat` arithmetic operations are compiled externs that
the proof kernel does not unfold, so concrete evaluation (`decide`,
`rfl`) would get stuck on them.  The embedding therefore builds every
rational it computes with `mkRat`, which the kernel does evaluate; the
lemmas `qNeg_eq`, `qDiv_eq`, `qOfScaled_eq` and `applyExp_eq` in the
theorem section show these helpers agree with the ordinary field
operations. -/

/-- Kernel-computable negation on `ℚ`. -/
def qNeg (q : ℚ) : ℚ := mkRat (-q.num) q.den

/-- Kernel-computable division on `ℚ` (division by zero yields zero,
matching Mathlib's convention; the extractors only divide by non-zero
values anyway). -/
def qDiv (a b : ℚ) : ℚ :=
  if b.num < 0 then mkRat (-(a.num * (b.den : ℤ))) (a.den * b.num.natAbs)
  else mkRat (a.num * (b.den : ℤ)) (a.den * b.num.natAbs)

/-- The rational `m / 10 ^ k`, built with `mkRat`. -/
def qOfScaled (m k : ℕ) : ℚ := mkRat (m : ℤ) (10 ^ k)

/-- The rational `m * 10 ^ e` for an integer exponent, built with
`mkRat`. -/
def applyExp (m : ℚ) (e : ℤ) : ℚ :=
  if 0 ≤ e then mkRat (m.num * (10 : ℤ) ^ e.toNat) m.den
  else mkRat m.num (m.den * 10 ^ (-e).toNat)

/-- Model of a Python float as it occurs in the pipeline: a finite value
(kept exact as a rational), NaN, or a signed infinity. -/
inductive FVal where
  | fin (q : ℚ)
  | nan
  | inf (pos : Bool)
deriving DecidableEq

/-- Python truthiness of a float: only `0.0` is falsy; NaN and the
infinities are truthy. -/
def ftruthy : FVal → Bool
  | FVal.fin q => if q = 0 then false else true
  | FVal.nan => true
  | FVal.inf _ => true

/-- Truthiness of a float-or-None value (Python `None` is falsy). -/
def optTruthy : Option FVal → Bool
  | Option.none => false
  | some v => ftruthy v

/-- IEEE-754 division for the modelled floats.  The extractors only
divide under a truthiness guard, so division by finite zero never
happens; the NaN/infinity arms follow IEEE-754 (the sign conventions for
zero results are approximated, no theorem depends on them). -/
def fvalDiv : FVal → FVal → FVal
  | FVal.nan, _ => FVal.nan
  | _, FVal.nan => FVal.nan
  | FVal.fin a, FVal.fin b => FVal.fin (qDiv a b)
  | FVal.inf p, FVal.fin b => FVal.inf (if b < 0 then !p else p)
  | FVal.fin _, FVal.inf _ => FVal.fin 0
  | FVal.inf _, FVal.inf _ => FVal.nan

/-- Numeric value of a decimal digit. -/
def digitVal (c : Char) : ℕ := c.toNat - '0'.toNat

/-- Value of a digit string read left to right. -/
def digitsVal (l : List Char) : ℕ := l.foldl (fun a c => a * 10 + digitVal c) 0

/-- Whether every character is a decimal digit. -/
def allDigits (l : List Char) : Bool := l.all Char.isDigit

/-- Split at the first `.`, keeping the remainder (if a dot was found). -/
def splitDot : List Char → (List Char × Option (List Char))
  | [] => ([], Option.none)
  | c :: rest =>
    if c = '.' then ([], some rest)
    else
      let (a, b) := splitDot rest
      (c :: a, b)

/-- Split at the first `e` or `E`, keeping the remainder. -/
def splitExp : List Char → (List Char × Option (List Char))
  | [] => ([], Option.none)
  | c :: rest =>
    if c = 'e' ∨ c = 'E' then ([], some rest)
    else
      let (a, b) := splitExp rest
      (c :: a, b)

/-- Read an optional leading sign; the flag is true for `-`. -/
def readSign : List Char → (Bool × List Char)
  | '+' :: r => (false, r)
  | '-' :: r => (true, r)
  | r => (false, r)

/-- Parse the mantissa `digits [. digits]` of a Python float literal; at
least one digit is required overall. -/
def parseMantissa (cs : List Char) : Option ℚ :=
  let (ip, fpOpt) := splitDot cs
  let fp := fpOpt.getD []
  if allDigits ip && allDigits fp && !(ip.isEmpty && fp.isEmpty) then
    some (qOfScaled (digitsVal ip * 10 ^ fp.length + digitsVal fp) fp.length)
  else Option.none

/-- Parse an exponent part `[sign] digits`. -/
def parseExp (cs : List Char) : Option ℤ :=
  let (neg, ds) := readSign cs
  if ds.isEmpty then Option.none
  else if allDigits ds then
    some (if neg then -(digitsVal ds : ℤ) else (digitsVal ds : ℤ))
  else Option.none

/-- Model of CPython `float(text)` on an already stripped string:
an optional sign followed by a case-insensitive `inf`/`infinity`/`nan`
or a decimal literal with optional fraction and exponent.  Finite values
are kept exact as rationals (rounding to binary64 is not modelled, and
neither are digit-group underscores, which the pipeline's data never
uses); failure is `Option.none`, where CPython raises `ValueError`. -/
def parsePyFloat (text : String) : Option FVal :=
  let (neg, body) := readSign text.data
  let low := body.map Char.toLower
  if low = "inf".data ∨ low = "infinity".data then some (FVal.inf (!neg))
  else if low = "nan".data then some FVal.nan
  else
    let (mant, expOpt) := splitExp body
    match expOpt with
    | Option.none => (parseMantissa mant).map (fun q => FVal.fin (if neg then qNeg q else q))
    | some ecs =>
      match parseMantissa mant, parseExp ecs with
      | some m, some e =>
        some (FVal.fin (if neg then qNeg (applyExp m e) else applyExp m e))
      | _, _ => Option.none

/-- Embedding of `safe_float` from the source: `None` stays absent,
numeric values pass through `float()` unchanged (including NaN and the
infinities), and for text the code strips it, absorbs `""`, a
case-insensitive `"nan"` and the literal tokens
`∞ +∞ -∞ inf +inf -inf` (this last check is case-sensitive in the
source), and otherwise falls back to `float(text)` with `ValueError`
mapped to `None`. -/
def safe_float : PyVal → Option FVal
  | PyVal.none => Option.none
  | PyVal.num q => some (FVal.fin q)
  | PyVal.nan => some FVal.nan
  | PyVal.inf b => some (FVal.inf b)
  | v =>
    let text := pyStrip (pyStr v)
    if text = "" then Option.none
    else if lowerStr text = "nan" then Option.none
    else if text = "∞" ∨ text = "+∞" ∨ text = "-∞" ∨ text = "inf" ∨ text = "+inf" ∨ text = "-inf" then
      Option.none
    else parsePyFloat text

/-- State of the module-level `_ID_COUNTERS` dictionary: one counter per
entity kind, all starting at zero.  The source keeps this dictionary at
module level and never resets it; here it is threaded explicitly through
every function that may call `_next_counter`. -/
structure Counters where
  vt : ℕ
  setting : ℕ
  curve : ℕ
  point : ℕ
  param : ℕ
  sel : ℕ

/-- The counter state at interpreter start-up: every counter is zero. -/
def Counters.start : Counters := ⟨0, 0, 0, 0, 0, 0⟩

/-- Embedding of `make_vt_id`: the natural `@id` when truthy, else the
positional key `VT-<relayId>-<idx:02d>` when the relay id is truthy,
else the global fallback `VT-AUTO-<counter:06d>` obtained from
`_next_counter("VT")`. -/
def make_vt_id (c : Counters) (relay_id vt_xml_id : PyVal) (idx : ℕ) : PyVal × Counters :=
  if truthy vt_xml_id then (vt_xml_id, c)
  else if truthy relay_id then
    (PyVal.str ("VT-" ++ pyStr relay_id ++ "-" ++ padZeros 2 idx), c)
  else
    let n := c.vt + 1
    (PyVal.str ("VT-AUTO-" ++ padZeros 6 n), { c with vt := n })

/-- Embedding of `make_curve_id`: the natural `@id` when truthy, else
`CUR-<relayId>-<funcId>-<idx:02d>` when both parent ids are truthy, else
the global fallback `CUR-AUTO-<counter:06d>`. -/
def make_curve_id (c : Counters) (relay_id func_id curve_xml_id : PyVal) (idx : ℕ) :
    PyVal × Counters :=
  if truthy curve_xml_id then (curve_xml_id, c)
  else if truthy relay_id && truthy func_id then
    (PyVal.str ("CUR-" ++ pyStr relay_id ++ "-" ++ pyStr func_id ++ "-" ++ padZeros 2 idx), c)
  else
    let n := c.curve + 1
    (PyVal.str ("CUR-AUTO-" ++ padZeros 6 n), { c with curve := n })

/-- Embedding of `make_point_id`: always synthetic,
`PT-<curveId>-<idx:03d>`. -/
def make_point_id (curve_id : PyVal) (idx : ℕ) : String :=
  "PT-" ++ pyStr curve_id ++ "-" ++ padZeros 3 idx

/-- Embedding of `make_setting_id`: one aggregated key per function,
`SET-<relayId>-<funcId>` (the f-string renders a missing relay id as the
text `None`, as Python does). -/
def make_setting_id (relay_id func_id : PyVal) : String :=
  "SET-" ++ pyStr relay_id ++ "-" ++ pyStr func_id

/-- Embedding of `make_parameter_id`: `PAR-<relayId>-<idx:03d>`. -/
def make_parameter_id (relay_id : PyVal) (idx : ℕ) : String :=
  "PAR-" ++ pyStr relay_id ++ "-" ++ padZeros 3 idx

/-- Embedding of `make_selectivity_id`:
`SEL-<relayId>-<funcId>-<D|U>-<idx:03d>`, the direction letter taken
from whether the direction string starts (case-insensitively) with
`down`. -/
def make_selectivity_id (relay_id func_id : PyVal) (direction : String) (idx : ℕ) : String :=
  let dir_code := if listStartsWith "down".data (lowerStr direction).data then "D" else "U"
  "SEL-" ++ pyStr relay_id ++ "-" ++ pyStr func_id ++ "-" ++ dir_code ++ "-" ++ padZeros 3 idx

/-- Row of the `relays_core` table (`normalize_relays_core`). -/
structure CoreRow where
  relay_id : PyVal
  manufacturer : PyVal
  model : PyVal
  series : PyVal
  relay_type : PyVal
  voltage_class_kv : PyVal
  frequency_hz : Option FVal
  config_date : PyVal
  protected_transformer_id : PyVal
  protected_feeder_id : PyVal
  protected_load_id : PyVal

/-- Row of the `relays_cts` table (`normalize_cts`). -/
structure CTRow where
  relay_id : PyVal
  ct_id : PyVal
  location : PyVal
  phase : PyVal
  primary_a : Option FVal
  secondary_a : Option FVal
  ratio : Option FVal
  class_ : PyVal
  burden_va : Option FVal
  core_id : PyVal

/-- Row of the `relays_vts` table (`normalize_vts`). -/
structure VTRow where
  relay_id : PyVal
  vt_id : PyVal
  location : PyVal
  primary_kv : Option FVal
  secondary_v : Option FVal
  connection : PyVal
  burden_va : Option FVal
  vt_defined : PyVal
  vt_enabled : PyVal

/-- Row of the `relays_functions` table (`normalize_functions`). -/
structure FuncRow where
  relay_id : PyVal
  function_id : PyVal
  name : PyVal
  ansi_code : PyVal
  enabled : PyVal
  zone : PyVal
  directionality : PyVal
  trip_output : PyVal
  ct_ref : PyVal

/-- Row of the `relays_function_settings` table
(`normalize_function_settings`).  The `extra_json` column is modelled as
the insertion-ordered association list that the source serializes with
`json.dumps` (or `None` when the map is empty). -/
structure SettingRow where
  setting_id : String
  function_id : PyVal
  pickup_pu : Option FVal
  pickup_a : Option FVal
  time_dial : Option FVal
  min_time_seconds : Option FVal
  thermal_constant : Option FVal
  full_load_current : Option FVal
  trip_class : Option FVal
  extra_json : Option (List (String × PyVal))

/-- Row of the `relays_curves` table (`normalize_function_curves`). -/
structure CurveRow where
  curve_id : PyVal
  function_id : PyVal
  family : PyVal
  type : PyVal
  standard : PyVal
  pickup_pu : Option FVal
  pickup_a : Option FVal
  time_dial : Option FVal
  min_time_sec : Option FVal
  parametric : Option Bool
  extra_json : Option (List (String × PyVal))

/-- Row of the `relays_curve_points` table (`normalize_curve_points`). -/
structure PointRow where
  point_id : String
  curve_id : PyVal
  base : PyVal
  multiple : Option FVal
  time_seconds : Option FVal
  amps : Option FVal
  volts : Option FVal

/-- Row of the `relays_parameters` table (`normalize_parameters`). -/
structure ParamRow where
  parameter_id : PyVal
  relay_id : PyVal
  name : PyVal
  group_name : PyVal
  type : PyVal
  value : PyVal

/-- Row of the `relays_selectivity` table (`normalize_selectivity`). -/
structure SelRow where
  selectivity_id : String
  function_id : PyVal
  upstream_device : PyVal
  downstream_device : PyVal
  element : PyVal
  coordination_margin : Option FVal

/-- Body of the `normalize_relays_core` loop for one relay.  A relay
that is not a dictionary makes `relay.get("@id")` raise
`AttributeError`, hence the `Except`. -/
def core_relay (relay : PyVal) : Except String CoreRow :=
  match relay with
  | PyVal.dict d =>
    Except.ok
      { relay_id := pyDictGet d "@id"
        manufacturer := pyDictGet d "@manufacturer"
        model := pyDictGet d "@model"
        series := pyDictGet d "@series"
        relay_type := pyDictGet d "@relayType"
        voltage_class_kv := pyDictGet d "@voltageClassKV"
        frequency_hz := safe_float (pyDictGet d "@frequencyHz")
        config_date := pyDictGet d "@configDate"
        protected_transformer_id := pyDictGet d "@protectedTransformerId"
        protected_feeder_id := pyDictGet d "@protectedFeederId"
        protected_load_id := pyDictGet d "@protectedLoadId" }
  | _ => Except.error "AttributeError"

/-- Embedding of `normalize_relays_core`: one row per relay, in order;
a raised exception aborts the whole loop as in Python. -/
def normalize_relays_core : List PyVal → Except String (List CoreRow)
  | [] => Except.ok []
  | relay :: rest =>
    match core_relay relay with
    | Except.error e => Except.error e
    | Except.ok row =>
      match normalize_relays_core rest with
      | Except.error e => Except.error e
      | Except.ok rows => Except.ok (row :: rows)

/-- Row built by `normalize_cts` for one CT dictionary at 1-based
position `idx` of its sibling list. -/
def ctRow (relay_id : PyVal) (idx : ℕ) (cd : List (String × PyVal)) : CTRow :=
  let primary := safe_float (pyDictGet cd "@primaryA")
  let secondary := safe_float (pyDictGet cd "@secondaryA")
  let ratio_v : Option FVal :=
    match primary, secondary with
    | some p, some s => if ftruthy p && ftruthy s then some (fvalDiv p s) else Option.none
    | _, _ => Option.none
  let cid := pyDictGet cd "@id"
  { relay_id := relay_id
    ct_id := if truthy cid then cid
             else PyVal.str ("CT-" ++ pyStr relay_id ++ "-" ++ padZeros 2 idx)
    location := pyDictGet cd "@location"
    phase := pyDictGet cd "@phase"
    primary_a := primary
    secondary_a := secondary
    ratio := ratio_v
    class_ := pyDictGet cd "@class"
    burden_va := safe_float (pyDictGet cd "@burdenVA")
    core_id := pyDictGet cd "@coreId" }

/-- Inner loop of `normalize_cts` over `enumerate(ensure_list(...),
start=1)`: the index advances for every element, dictionaries produce a
row and anything else is skipped. -/
def cts_items (relay_id : PyVal) : ℕ → List PyVal → List CTRow
  | _, [] => []
  | idx, ct :: rest =>
    match ct with
    | PyVal.dict cd => ctRow relay_id idx cd :: cts_items relay_id (idx + 1) rest
    | _ => cts_items relay_id (idx + 1) rest

/-- Body of the `normalize_cts` loop for one relay: a falsy `CTs` block
yields no rows; a truthy block must be a dictionary for
`cts_block.get("CT")` to succeed. -/
def cts_relay (relay : PyVal) : Except String (List CTRow) :=
  match relay with
  | PyVal.dict d =>
    let relay_id := pyDictGet d "@id"
    let cts_block := pyDictGet d "CTs"
    if truthy cts_block then
      match cts_block with
      | PyVal.dict cb => Except.ok (cts_items relay_id 1 (ensure_list (pyDictGet cb "CT")))
      | _ => Except.error "AttributeError"
    else Except.ok []
  | _ => Except.error "AttributeError"

/-- Embedding of `normalize_cts`. -/
def normalize_cts : List PyVal → Except String (List CTRow)
  | [] => Except.ok []
  | relay :: rest =>
    match cts_relay relay with
    | Except.error e => Except.error e
    | Except.ok rows₁ =>
      match normalize_cts rest with
      | Except.error e => Except.error e
      | Except.ok rows₂ => Except.ok (rows₁ ++ rows₂)

/-- Inner loop of `normalize_vts` over the enumerated VT nodes,
threading the `_ID_COUNTERS` state through `make_vt_id`. -/
def vts_items (c : Counters) (relay_id vt_defined vt_enabled : PyVal) :
    ℕ → List PyVal → List VTRow × Counters
  | _, [] => ([], c)
  | idx, vt :: rest =>
    match vt with
    | PyVal.dict vd =>
      let (vt_id, c₁) := make_vt_id c relay_id (pyDictGet vd "@id") idx
      let row : VTRow :=
        { relay_id := relay_id
          vt_id := vt_id
          location := pyDictGet vd "@location"
          primary_kv := safe_float (pyDictGet vd "@primaryKV")
          secondary_v := safe_float (pyDictGet vd "@secondaryV")
          connection := pyDictGet vd "@connection"
          burden_va := safe_float (pyDictGet vd "@burdenVA")
          vt_defined := vt_defined
          vt_enabled := vt_enabled }
      let (rows, c₂) := vts_items c₁ relay_id vt_defined vt_enabled (idx + 1) rest
      (row :: rows, c₂)
    | _ => vts_items c relay_id vt_defined vt_enabled (idx + 1) rest

/-- Body of the `normalize_vts` loop for one relay: with only VT flags
and no `VT` node a single synthetic VT row is emitted; otherwise the
node list is walked with non-dictionaries skipped. -/
def vts_relay (c : Counters) (relay : PyVal) : Except String (List VTRow × Counters) :=
  match relay with
  | PyVal.dict d =>
    let relay_id := pyDictGet d "@id"
    let vts_block := pyDictGet d "VTs"
    if truthy vts_block then
      match vts_block with
      | PyVal.dict vb =>
        let vt_defined := pyDictGet vb "@vtDefined"
        let vt_enabled := pyDictGet vb "@vtEnabled"
        match pyDictGet vb "VT" with
        | PyVal.none =>
          let (vt_id, c₁) := make_vt_id c relay_id PyVal.none 1
          Except.ok
            ([{ relay_id := relay_id
                vt_id := vt_id
                location := PyVal.none
                primary_kv := Option.none
                secondary_v := Option.none
                connection := PyVal.none
                burden_va := Option.none
                vt_defined := vt_defined
                vt_enabled := vt_enabled }], c₁)
        | vt_nodes =>
          Except.ok (vts_items c relay_id vt_defined vt_enabled 1 (ensure_list vt_nodes))
      | _ => Except.error "AttributeError"
    else Except.ok ([], c)
  | _ => Except.error "AttributeError"

/-- Embedding of `normalize_vts`, threading the counter state. -/
def normalize_vts (c : Counters) : List PyVal → Except String (List VTRow × Counters)
  | [] => Except.ok ([], c)
  | relay :: rest =>
    match vts_relay c relay with
    | Except.error e => Except.error e
    | Except.ok (rows₁, c₁) =>
      match normalize_vts c₁ rest with
      | Except.error e => Except.error e
      | Except.ok (rows₂, c₂) => Except.ok (rows₁ ++ rows₂, c₂)

/-- Inner loop of `normalize_functions`: non-dictionary function nodes
are skipped. -/
def funcs_items (relay_id : PyVal) : List PyVal → List FuncRow
  | [] => []
  | f :: rest =>
    match f with
    | PyVal.dict fd =>
      { relay_id := relay_id
        function_id := pyDictGet fd "@id"
        name := pyDictGet fd "@name"
        ansi_code := pyDictGet fd "@ansiCode"
        enabled := pyDictGet fd "@enabled"
        zone := pyDictGet fd "@zone"
        directionality := pyDictGet fd "@directionality"
        trip_output := pyDictGet fd "@tripOutput"
        ct_ref := pyDictGet fd "@ctRef" } :: funcs_items relay_id rest
    | _ => funcs_items relay_id rest

/-- Body of the `normalize_functions` loop for one relay. -/
def funcs_relay (relay : PyVal) : Except String (List FuncRow) :=
  match relay with
  | PyVal.dict d =>
    let relay_id := pyDictGet d "@id"
    let pf_block := pyDictGet d "ProtectionFunctions"
    if truthy pf_block then
      match pf_block with
      | PyVal.dict pb => Except.ok (funcs_items relay_id (ensure_list (pyDictGet pb "Function")))
      | _ => Except.error "AttributeError"
    else Except.ok []
  | _ => Except.error "AttributeError"

/-- Embedding of `normalize_functions`. -/
def normalize_functions : List PyVal → Except String (List FuncRow)
  | [] => Except.ok []
  | relay :: rest =>
    match funcs_relay relay with
    | Except.error e => Except.error e
    | Except.ok rows₁ =>
      match normalize_functions rest with
      | Except.error e => Except.error e
      | Except.ok rows₂ => Except.ok (rows₁ ++ rows₂)

/-- One raw settings triple `(parameter, attribute, value)` as produced
by `_collect_raw_settings_for_function`. -/
structure RawSetting where
  parameter : String
  attr : String
  value : PyVal

/-- Triples produced from the attributes of one settings node: every
key starting with `@` yields `(parameter, key.lstrip("@"), value)`. -/
def attrTriples (key : String) : List (String × PyVal) → List RawSetting
  | [] => []
  | (an, av) :: rest =>
    if startsWithAt an then ⟨key, lstripAt an, av⟩ :: attrTriples key rest
    else attrTriples key rest

/-- Iteration of `settings.items()` inside
`_collect_raw_settings_for_function`: the `Curve` entry is skipped, a
non-dictionary node becomes a single `_text` triple over `str(node)`,
and a dictionary node contributes one triple per `@`-attribute. -/
def collect_items : List (String × PyVal) → List RawSetting
  | [] => []
  | (key, node) :: rest =>
    if key = "Curve" then collect_items rest
    else
      match node with
      | PyVal.dict attrs => attrTriples key attrs ++ collect_items rest
      | _ => ⟨key, "_text", PyVal.str (pyStr node)⟩ :: collect_items rest

/-- Embedding of `_collect_raw_settings_for_function` for a function
dictionary: a falsy `Settings` block yields no triples, and a truthy
non-dictionary block makes `settings.items()` raise. -/
def _collect_raw_settings_for_function (fd : List (String × PyVal)) :
    Except String (List RawSetting) :=
  let settings := pyDictGet fd "Settings"
  if truthy settings then
    match settings with
    | PyVal.dict items => Except.ok (collect_items items)
    | _ => Except.error "AttributeError"
  else Except.ok []

/-- The `by_param.setdefault(param, []).append(item)` step: the item is
appended to the existing group of its parameter, or a new group is
appended at the end. -/
def addToGroup (acc : List (String × List (String × PyVal))) (p : String)
    (item : String × PyVal) : List (String × List (String × PyVal)) :=
  match acc with
  | [] => [(p, [item])]
  | (k, l) :: rest =>
    if k = p then (k, l ++ [item]) :: rest
    else (k, l) :: addToGroup rest p item

/-- Grouping of the raw triples by parameter name, in first-occurrence
order, as the `by_param` dictionary of the source. -/
def groupByParam (raw : List RawSetting) : List (String × List (String × PyVal)) :=
  raw.foldl (fun acc t => addToGroup acc t.parameter (t.attr, t.value)) []

/-- Flattening of the grouped triples back into the order in which the
aggregation loop of `normalize_function_settings` visits them. -/
def flattenGroups (groups : List (String × List (String × PyVal))) : List RawSetting :=
  match groups with
  | [] => []
  | (p, items) :: rest => items.map (fun it => ⟨p, it.1, it.2⟩) ++ flattenGroups rest

/-- The seven canonical columns of a `FunctionSetting` row. -/
structure CanonFields where
  pickup_pu : Option FVal
  pickup_a : Option FVal
  time_dial : Option FVal
  min_time_seconds : Option FVal
  thermal_constant : Option FVal
  full_load_current : Option FVal
  trip_class : Option FVal

/-- All canonical fields start out as `None`. -/
def CanonFields.empty : CanonFields :=
  ⟨Option.none, Option.none, Option.none, Option.none, Option.none, Option.none, Option.none⟩

/-- Whether a lowercased parameter name belongs to the synonym table of
any canonical column. -/
def canonParam (pl : String) : Bool :=
  pl = "pickupperunit" ∨ pl = "pickup_per_unit" ∨ pl = "pickup_pu" ∨
  pl = "pickupamps" ∨ pl = "pickup_a" ∨ pl = "pickup_current" ∨
  pl = "timedial" ∨ pl = "time_dial" ∨
  pl = "mintimeseconds" ∨ pl = "min_time_seconds" ∨ pl = "min_time" ∨
  pl = "thermalconstant" ∨ pl = "thermal_constant" ∨
  pl = "fullloadcurrent" ∨ pl = "full_load_current" ∨ pl = "fla" ∨
  pl = "tripclass" ∨ pl = "trip_class"

/-- The `if/elif` chain of `normalize_function_settings` mapping one
triple onto the canonical columns (the lowercased parameter name decides
the column, the coerced value overwrites it). -/
def applyCanon (f : CanonFields) (pl : String) (value : PyVal) : CanonFields :=
  if pl = "pickupperunit" ∨ pl = "pickup_per_unit" ∨ pl = "pickup_pu" then
    { f with pickup_pu := safe_float value }
  else if pl = "pickupamps" ∨ pl = "pickup_a" ∨ pl = "pickup_current" then
    { f with pickup_a := safe_float value }
  else if pl = "timedial" ∨ pl = "time_dial" then
    { f with time_dial := safe_float value }
  else if pl = "mintimeseconds" ∨ pl = "min_time_seconds" ∨ pl = "min_time" then
    { f with min_time_seconds := safe_float value }
  else if pl = "thermalconstant" ∨ pl = "thermal_constant" then
    { f with thermal_constant := safe_float value }
  else if pl = "fullloadcurrent" ∨ pl = "full_load_current" ∨ pl = "fla" then
    { f with full_load_current := safe_float value }
  else if pl = "tripclass" ∨ pl = "trip_class" then
    { f with trip_class := safe_float value }
  else f

/-- Python dictionary assignment `d[k] = v` on the association-list
model: replace in place when the key exists, append otherwise. -/
def dictAssign (d : List (String × PyVal)) (k : String) (v : PyVal) : List (String × PyVal) :=
  match d with
  | [] => [(k, v)]
  | (k₀, v₀) :: rest =>
    if k₀ = k then (k, v) :: rest else (k₀, v₀) :: dictAssign rest k v

/-- One step of the aggregation loop: record the triple in the
extension map under `"<parameter>.<attribute>"` and update the
canonical columns. -/
def settingsStep (st : CanonFields × List (String × PyVal)) (t : RawSetting) :
    CanonFields × List (String × PyVal) :=
  (applyCanon st.1 (lowerStr t.parameter) t.value,
   dictAssign st.2 (t.parameter ++ "." ++ t.attr) t.value)

/-- The aggregation loop of `normalize_function_settings` over the
grouped triples, visiting groups in first-occurrence order and the
items of each group in order. -/
def foldSettings (raw : List RawSetting) : CanonFields × List (String × PyVal) :=
  (flattenGroups (groupByParam raw)).foldl settingsStep (CanonFields.empty, [])

/-- Rows of `normalize_function_settings` for one function dictionary:
no row when the flattened settings are empty, otherwise exactly one
aggregated row keyed by `make_setting_id`. -/
def settings_rows_for_function (relay_id : PyVal) (fd : List (String × PyVal)) :
    Except String (List SettingRow) :=
  let fid := pyDictGet fd "@id"
  let func_id := if truthy fid then fid else PyVal.str ""
  match _collect_raw_settings_for_function fd with
  | Except.error e => Except.error e
  | Except.ok raw =>
    if raw.isEmpty then Except.ok []
    else
      let (canon, extra) := foldSettings raw
      Except.ok
        [{ setting_id := make_setting_id relay_id func_id
           function_id := func_id
           pickup_pu := canon.pickup_pu
           pickup_a := canon.pickup_a
           time_dial := canon.time_dial
           min_time_seconds := canon.min_time_seconds
           thermal_constant := canon.thermal_constant
           full_load_current := canon.full_load_current
           trip_class := canon.trip_class
           extra_json := if extra.isEmpty then Option.none else some extra }]

/-- Loop of `normalize_function_settings` over the function nodes of
one relay, skipping non-dictionaries. -/
def settings_funcs (relay_id : PyVal) : List PyVal → Except String (List SettingRow)
  | [] => Except.ok []
  | f :: rest =>
    match f with
    | PyVal.dict fd =>
      match settings_rows_for_function relay_id fd with
      | Except.error e => Except.error e
      | Except.ok rows₁ =>
        match settings_funcs relay_id rest with
        | Except.error e => Except.error e
        | Except.ok rows₂ => Except.ok (rows₁ ++ rows₂)
    | _ => settings_funcs relay_id rest

/-- Body of the `normalize_function_settings` loop for one relay. -/
def settings_relay (relay : PyVal) : Except String (List SettingRow) :=
  match relay with
  | PyVal.dict d =>
    let relay_id := pyDictGet d "@id"
    let pf_block := pyDictGet d "ProtectionFunctions"
    if truthy pf_block then
      match pf_block with
      | PyVal.dict pb => settings_funcs relay_id (ensure_list (pyDictGet pb "Function"))
      | _ => Except.error "AttributeError"
    else Except.ok []
  | _ => Except.error "AttributeError"

/-- Embedding of `normalize_function_settings`. -/
def normalize_function_settings : List PyVal → Except String (List SettingRow)
  | [] => Except.ok []
  | relay :: rest =>
    match settings_relay relay with
    | Except.error e => Except.error e
    | Except.ok rows₁ =>
      match normalize_function_settings rest with
      | Except.error e => Except.error e
      | Except.ok rows₂ => Except.ok (rows₁ ++ rows₂)

/-- The `@`-attribute dictionary of a curve or point node:
`{k.lstrip("@"): v for k, v in node.items() if k.startswith("@")}`,
with later duplicates overwriting earlier ones as in a Python dict
comprehension. -/
def attrsOf (node : List (String × PyVal)) : List (String × PyVal) :=
  node.foldl
    (fun acc kv => if startsWithAt kv.1 then dictAssign acc (lstripAt kv.1) kv.2 else acc) []

/-- Python `d.pop(key, None)` on the association-list model: the stored
value (if any) and the dictionary without that entry. -/
def dictPop (d : List (String × PyVal)) (key : String) :
    Option PyVal × List (String × PyVal) :=
  match d with
  | [] => (Option.none, [])
  | (k, v) :: rest =>
    if k = key then (some v, rest)
    else
      let (r, d₁) := dictPop rest key
      (r, (k, v) :: d₁)

/-- Candidate curve nodes of one function: the `Curve` entry nested in
the `Settings` block (when `settings and "Curve" in settings`), followed
by the `Curve` entry directly under the function.  Membership tests on a
truthy non-container `Settings` value raise `TypeError` exactly where
Python would (`"Curve" in 5`), and a string `Settings` containing
`"Curve"` as a substring makes the subscript `settings["Curve"]`
raise. -/
def curve_candidates (fd : List (String × PyVal)) : Except String (List PyVal) :=
  let settings := pyDictGet fd "Settings"
  let fromSettings : Except String (List PyVal) :=
    if truthy settings then
      match settings with
      | PyVal.dict sd =>
        match pyLookup sd "Curve" with
        | some v => Except.ok (ensure_list v)
        | Option.none => Except.ok []
      | PyVal.str s =>
        if pyInStr "Curve" s then Except.error "TypeError" else Except.ok []
      | PyVal.list l =>
        if l.any (fun x => match x with | PyVal.str s => s = "Curve" | _ => false) then
          Except.error "TypeError"
        else Except.ok []
      | _ => Except.error "TypeError"
    else Except.ok []
  match fromSettings with
  | Except.error e => Except.error e
  | Except.ok nodes₁ =>
    match pyLookup fd "Curve" with
    | some v => Except.ok (nodes₁ ++ ensure_list v)
    | Option.none => Except.ok nodes₁

/-- Row of `normalize_function_curves` for one curve dictionary: the id
comes from `make_curve_id` over the (unpopped) `id` attribute, the
canonical columns are popped from the attribute map, `parametric` is a
tri-state parsed from truthy/falsy tokens, and what remains of the map
becomes the extension map. -/
def curve_row (c : Counters) (relay_id func_id : PyVal) (idx : ℕ)
    (cd : List (String × PyVal)) : CurveRow × Counters :=
  let attrs := attrsOf cd
  let (curve_id, c₁) := make_curve_id c relay_id func_id (pyDictGet attrs "id") idx
  let (family, a₁) := dictPop attrs "family"
  let (ctype, a₂) := dictPop a₁ "type"
  let (standard, a₃) := dictPop a₂ "standard"
  let (ppu, a₄) := dictPop a₃ "pickupPU"
  let (pa, a₅) := dictPop a₄ "pickupA"
  let (td, a₆) := dictPop a₅ "timeDial"
  let (mts, a₇) := dictPop a₆ "minTimeSeconds"
  let (praw, a₈) := dictPop a₇ "parametric"
  let parametric : Option Bool :=
    match praw.getD PyVal.none with
    | PyVal.str s =>
      if lowerStr s = "true" ∨ lowerStr s = "1" ∨ lowerStr s = "yes" then some true
      else if lowerStr s = "false" ∨ lowerStr s = "0" ∨ lowerStr s = "no" then some false
      else Option.none
    | _ => Option.none
  ({ curve_id := curve_id
     function_id := func_id
     family := (family.getD PyVal.none)
     type := (ctype.getD PyVal.none)
     standard := (standard.getD PyVal.none)
     pickup_pu := safe_float (ppu.getD PyVal.none)
     pickup_a := safe_float (pa.getD PyVal.none)
     time_dial := safe_float (td.getD PyVal.none)
     min_time_sec := safe_float (mts.getD PyVal.none)
     parametric := parametric
     extra_json := if a₈.isEmpty then Option.none else some a₈ }, c₁)

/-- Loop of `normalize_function_curves` over the enumerated candidate
curve nodes: the index advances for every candidate, non-dictionaries
are skipped. -/
def curve_items (c : Counters) (relay_id func_id : PyVal) :
    ℕ → List PyVal → List CurveRow × Counters
  | _, [] => ([], c)
  | idx, n :: rest =>
    match n with
    | PyVal.dict cd =>
      let (row, c₁) := curve_row c relay_id func_id idx cd
      let (rows, c₂) := curve_items c₁ relay_id func_id (idx + 1) rest
      (row :: rows, c₂)
    | _ => curve_items c relay_id func_id (idx + 1) rest

/-- Rows of `normalize_function_curves` for one function dictionary. -/
def curves_for_function (c : Counters) (relay_id : PyVal) (fd : List (String × PyVal)) :
    Except String (List CurveRow × Counters) :=
  let func_id := pyDictGet fd "@id"
  match curve_candidates fd with
  | Except.error e => Except.error e
  | Except.ok nodes => Except.ok (curve_items c relay_id func_id 1 nodes)

/-- Loop of `normalize_function_curves` over the function nodes of one
relay. -/
def curves_funcs (c : Counters) (relay_id : PyVal) :
    List PyVal → Except String (List CurveRow × Counters)
  | [] => Except.ok ([], c)
  | f :: rest =>
    match f with
    | PyVal.dict fd =>
      match curves_for_function c relay_id fd with
      | Except.error e => Except.error e
      | Except.ok (rows₁, c₁) =>
        match curves_funcs c₁ relay_id rest with
        | Except.error e => Except.error e
        | Except.ok (rows₂, c₂) => Except.ok (rows₁ ++ rows₂, c₂)
    | _ => curves_funcs c relay_id rest

/-- Body of the `normalize_function_curves` loop for one relay. -/
def curves_relay (c : Counters) (relay : PyVal) : Except String (List CurveRow × Counters) :=
  match relay with
  | PyVal.dict d =>
    let relay_id := pyDictGet d "@id"
    let pf_block := pyDictGet d "ProtectionFunctions"
    if truthy pf_block then
      match pf_block with
      | PyVal.dict pb => curves_funcs c relay_id (ensure_list (pyDictGet pb "Function"))
      | _ => Except.error "AttributeError"
    else Except.ok ([], c)
  | _ => Except.error "AttributeError"

/-- Embedding of `normalize_function_curves`. -/
def normalize_function_curves (c : Counters) :
    List PyVal → Except String (List CurveRow × Counters)
  | [] => Except.ok ([], c)
  | relay :: rest =>
    match curves_relay c relay with
    | Except.error e => Except.error e
    | Except.ok (rows₁, c₁) =>
      match normalize_function_curves c₁ rest with
      | Except.error e => Except.error e
      | Except.ok (rows₂, c₂) => Except.ok (rows₁ ++ rows₂, c₂)

/-- Loop of `normalize_curve_points` over the enumerated `Point` nodes
of a `CurvePoints` block. -/
def point_items (curve_id base : PyVal) : ℕ → List PyVal → List PointRow
  | _, [] => []
  | idx, p :: rest =>
    match p with
    | PyVal.dict pd =>
      let attrs := attrsOf pd
      { point_id := make_point_id curve_id idx
        curve_id := curve_id
        base := base
        multiple := safe_float (pyDictGet attrs "multiple")
        time_seconds := safe_float (pyDictGet attrs "timeSeconds")
        amps := safe_float (pyDictGet attrs "current")
        volts := Option.none } :: point_items curve_id base (idx + 1) rest
    | _ => point_items curve_id base (idx + 1) rest

/-- Rows of `normalize_curve_points` for one function dictionary: the
curve id is recomputed from the first candidate curve (index 1) before
the `CurvePoints` block is even inspected — so the counter side effect
of `make_curve_id` happens for every function — and points are emitted
only when the block is truthy. -/
def points_for_function (c : Counters) (relay_id : PyVal) (fd : List (String × PyVal)) :
    Except String (List PointRow × Counters) :=
  let func_id := pyDictGet fd "@id"
  match curve_candidates fd with
  | Except.error e => Except.error e
  | Except.ok nodes =>
    let curve_xml_id : PyVal :=
      match nodes with
      | [] => PyVal.none
      | first :: _ =>
        match first with
        | PyVal.dict cd => pyDictGet (attrsOf cd) "id"
        | _ => PyVal.none
    let (curve_id, c₁) := make_curve_id c relay_id func_id curve_xml_id 1
    let cp_block := pyDictGet fd "CurvePoints"
    if truthy cp_block then
      match cp_block with
      | PyVal.dict cpd =>
        let base := pyDictGet cpd "@base"
        Except.ok (point_items curve_id base 1 (ensure_list (pyDictGet cpd "Point")), c₁)
      | _ => Except.error "AttributeError"
    else Except.ok ([], c₁)

/-- Loop of `normalize_curve_points` over the function nodes of one
relay. -/
def points_funcs (c : Counters) (relay_id : PyVal) :
    List PyVal → Except String (List PointRow × Counters)
  | [] => Except.ok ([], c)
  | f :: rest =>
    match f with
    | PyVal.dict fd =>
      match points_for_function c relay_id fd with
      | Except.error e => Except.error e
      | Except.ok (rows₁, c₁) =>
        match points_funcs c₁ relay_id rest with
        | Except.error e => Except.error e
        | Except.ok (rows₂, c₂) => Except.ok (rows₁ ++ rows₂, c₂)
    | _ => points_funcs c relay_id rest

/-- Body of the `normalize_curve_points` loop for one relay. -/
def points_relay (c : Counters) (relay : PyVal) : Except String (List PointRow × Counters) :=
  match relay with
  | PyVal.dict d =>
    let relay_id := pyDictGet d "@id"
    let pf_block := pyDictGet d "ProtectionFunctions"
    if truthy pf_block then
      match pf_block with
      | PyVal.dict pb => points_funcs c relay_id (ensure_list (pyDictGet pb "Function"))
      | _ => Except.error "AttributeError"
    else Except.ok ([], c)
  | _ => Except.error "AttributeError"

/-- Embedding of `normalize_curve_points`. -/
def normalize_curve_points (c : Counters) :
    List PyVal → Except String (List PointRow × Counters)
  | [] => Except.ok ([], c)
  | relay :: rest =>
    match points_relay c relay with
    | Except.error e => Except.error e
    | Except.ok (rows₁, c₁) =>
      match normalize_curve_points c₁ rest with
      | Except.error e => Except.error e
      | Except.ok (rows₂, c₂) => Except.ok (rows₁ ++ rows₂, c₂)

/-- Loop of `normalize_parameters` over the enumerated `Parameter`
nodes of one relay. -/
def param_items (relay_id : PyVal) : ℕ → List PyVal → List ParamRow
  | _, [] => []
  | idx, p :: rest =>
    match p with
    | PyVal.dict pd =>
      let pid := pyDictGet pd "@id"
      { parameter_id := if truthy pid then pid
                        else PyVal.str (make_parameter_id relay_id idx)
        relay_id := relay_id
        name := pyDictGet pd "@name"
        group_name := pyDictGet pd "@group"
        type := pyDictGet pd "@type"
        value := pyDictGet pd "@value" } :: param_items relay_id (idx + 1) rest
    | _ => param_items relay_id (idx + 1) rest

/-- Body of the `normalize_parameters` loop for one relay. -/
def params_relay (relay : PyVal) : Except String (List ParamRow) :=
  match relay with
  | PyVal.dict d =>
    let relay_id := pyDictGet d "@id"
    let params_block := pyDictGet d "Parameters"
    if truthy params_block then
      match params_block with
      | PyVal.dict pb =>
        Except.ok (param_items relay_id 1 (ensure_list (pyDictGet pb "Parameter")))
      | _ => Except.error "AttributeError"
    else Except.ok []
  | _ => Except.error "AttributeError"

/-- Embedding of `normalize_parameters`. -/
def normalize_parameters : List PyVal → Except String (List ParamRow)
  | [] => Except.ok []
  | relay :: rest =>
    match params_relay relay with
    | Except.error e => Except.error e
    | Except.ok rows₁ =>
      match normalize_parameters rest with
      | Except.error e => Except.error e
      | Except.ok rows₂ => Except.ok (rows₁ ++ rows₂)

/-- Loop of `normalize_selectivity` over the enumerated downstream or
upstream device nodes of one `Selectivity` block. -/
def sel_items (relay_id func_id : PyVal) (direction : String) (margin_s : Option FVal) :
    ℕ → List PyVal → List SelRow
  | _, [] => []
  | idx, dev :: rest =>
    match dev with
    | PyVal.dict dd =>
      { selectivity_id := make_selectivity_id relay_id func_id direction idx
        function_id := func_id
        upstream_device := if direction = "Upstream" then pyDictGet dd "@id" else PyVal.none
        downstream_device := if direction = "Upstream" then PyVal.none else pyDictGet dd "@id"
        element := pyDictGet dd "@element"
        coordination_margin := margin_s } :: sel_items relay_id func_id direction margin_s (idx + 1) rest
    | _ => sel_items relay_id func_id direction margin_s (idx + 1) rest

/-- Rows of `normalize_selectivity` for one function dictionary: the
coordination margin is read once (with `{}` as the default for an
absent `CoordinationMargin` entry) and applied to every emitted edge;
the downstream list is walked before the upstream one. -/
def sel_for_function (relay_id : PyVal) (fd : List (String × PyVal)) :
    Except String (List SelRow) :=
  let func_id := pyDictGet fd "@id"
  let sel_block := pyDictGet fd "Selectivity"
  if truthy sel_block then
    match sel_block with
    | PyVal.dict sd =>
      let margin := (pyLookup sd "CoordinationMargin").getD (PyVal.dict [])
      match margin with
      | PyVal.dict md =>
        let margin_s := safe_float (pyDictGet md "@seconds")
        Except.ok
          (sel_items relay_id func_id "Downstream" margin_s 1
              (ensure_list (pyDictGet sd "DownstreamDevice")) ++
           sel_items relay_id func_id "Upstream" margin_s 1
              (ensure_list (pyDictGet sd "UpstreamDevice")))
      | _ => Except.error "AttributeError"
    | _ => Except.error "AttributeError"
  else Except.ok []

/-- Loop of `normalize_selectivity` over the function nodes of one
relay. -/
def sel_funcs (relay_id : PyVal) : List PyVal → Except String (List SelRow)
  | [] => Except.ok []
  | f :: rest =>
    match f with
    | PyVal.dict fd =>
      match sel_for_function relay_id fd with
      | Except.error e => Except.error e
      | Except.ok rows₁ =>
        match sel_funcs relay_id rest with
        | Except.error e => Except.error e
        | Except.ok rows₂ => Except.ok (rows₁ ++ rows₂)
    | _ => sel_funcs relay_id rest

/-- Body of the `normalize_selectivity` loop for one relay. -/
def sel_relay (relay : PyVal) : Except String (List SelRow) :=
  match relay with
  | PyVal.dict d =>
    let relay_id := pyDictGet d "@id"
    let pf_block := pyDictGet d "ProtectionFunctions"
    if truthy pf_block then
      match pf_block with
      | PyVal.dict pb => sel_funcs relay_id (ensure_list (pyDictGet pb "Function"))
      | _ => Except.error "AttributeError"
    else Except.ok []
  | _ => Except.error "AttributeError"

/-- Embedding of `normalize_selectivity`. -/
def normalize_selectivity : List PyVal → Except String (List SelRow)
  | [] => Except.ok []
  | relay :: rest =>
    match sel_relay relay with
    | Except.error e => Except.error e
    | Except.ok rows₁ =>
      match normalize_selectivity rest with
      | Except.error e => Except.error e
      | Except.ok rows₂ => Except.ok (rows₁ ++ rows₂)

/-- The nine record sets produced by one normalization pass. -/
structure Tables where
  core : List CoreRow
  cts : List CTRow
  vts : List VTRow
  functions : List FuncRow
  settings : List SettingRow
  curves : List CurveRow
  points : List PointRow
  parameters : List ParamRow
  selectivity : List SelRow

/-- The record-set-producing part of `run_normalize_pipeline`, applied
to an already loaded relay list: the nine extraction functions run in
the order of the source, the module-level `_ID_COUNTERS` state entering
as `c` and the state left behind for any later run returned alongside
the tables.  The source never resets `_ID_COUNTERS`, so a second call in
the same process starts from the returned state, not from
`Counters.start`. -/
def run_tables (relays : List PyVal) (c : Counters) : Except String (Tables × Counters) :=
  match normalize_relays_core relays with
  | Except.error e => Except.error e
  | Except.ok core =>
    match normalize_cts relays with
    | Except.error e => Except.error e
    | Except.ok cts =>
      match normalize_vts c relays with
      | Except.error e => Except.error e
      | Except.ok (vts, c₁) =>
        match normalize_functions relays with
        | Except.error e => Except.error e
        | Except.ok fns =>
          match normalize_function_settings relays with
          | Except.error e => Except.error e
          | Except.ok settings =>
            match normalize_function_curves c₁ relays with
            | Except.error e => Except.error e
            | Except.ok (curves, c₂) =>
              match normalize_curve_points c₂ relays with
              | Except.error e => Except.error e
              | Except.ok (points, c₃) =>
                match normalize_parameters relays with
                | Except.error e => Except.error e
                | Except.ok parameters =>
                  match normalize_selectivity relays with
                  | Except.error e => Except.error e
                  | Except.ok selectivity =>
                    Except.ok
                      ({ core := core, cts := cts, vts := vts, functions := fns
                         settings := settings, curves := curves, points := points
                         parameters := parameters, selectivity := selectivity }, c₃)

/-!  Projection helpers used to state closed, evaluable properties of
whole extraction results, and the concrete input trees the claims are
settled on. -/

/-- The `vt_id` column (rendered as text) of the VT table of a pipeline
run, or the empty list when the run aborted. -/
def runVtIds (e : Except String (Tables × Counters)) : List String :=
  match e with
  | Except.ok (t, _) => t.vts.map (fun r => pyStr r.vt_id)
  | Except.error _ => []

/-- The counter state left behind by a pipeline run (unchanged on an
aborted run). -/
def runEndState (c : Counters) (e : Except String (Tables × Counters)) : Counters :=
  match e with
  | Except.ok (_, c₁) => c₁
  | Except.error _ => c

/-- The `curve_id` column (rendered as text) of the Curve table of a
pipeline run. -/
def runCurveIds (e : Except String (Tables × Counters)) : List String :=
  match e with
  | Except.ok (t, _) => t.curves.map (fun r => pyStr r.curve_id)
  | Except.error _ => []

/-- The `curve_id` column (rendered as text) of the CurvePoint table of
a pipeline run. -/
def runPointCurveIds (e : Except String (Tables × Counters)) : List String :=
  match e with
  | Except.ok (t, _) => t.points.map (fun r => pyStr r.curve_id)
  | Except.error _ => []

/-- The `setting_id` column of a `normalize_function_settings` result
(empty when the extraction raised). -/
def settingIds (e : Except String (List SettingRow)) : List String :=
  match e with
  | Except.ok rows => rows.map (fun r => r.setting_id)
  | Except.error _ => []

/-- The `(primary_a, secondary_a, ratio)` columns of a `normalize_cts`
result. -/
def ctNumericTriples (e : Except String (List CTRow)) :
    List (Option FVal × Option FVal × Option FVal) :=
  match e with
  | Except.ok rows => rows.map (fun r => (r.primary_a, r.secondary_a, r.ratio))
  | Except.error _ => []

/-- The `primary_a` column of a `normalize_cts` result. -/
def ctPrimaries (e : Except String (List CTRow)) : List (Option FVal) :=
  match e with
  | Except.ok rows => rows.map (fun r => r.primary_a)
  | Except.error _ => []

/-- The extension maps of a `normalize_function_settings` result, the
absent map read as empty. -/
def extraMaps (e : Except String (List SettingRow)) : List (List (String × PyVal)) :=
  match e with
  | Except.ok rows => rows.map (fun r => r.extra_json.getD [])
  | Except.error _ => []

/-- The raw triples of a settings bag that are not mapped to any
canonical column (the `N` of the losslessness property in the spec). -/
def unmappedOf (raw : List RawSetting) : List RawSetting :=
  raw.filter (fun t => !canonParam (lowerStr t.parameter))

/-- The one aggregated row `settings_rows_for_function` builds from a
non-empty raw triple list (spelled out for proof reuse; it is
definitionally the row of the extractor). -/
def aggRow (rid : PyVal) (fd : List (String × PyVal)) (raw : List RawSetting) : SettingRow :=
  { setting_id := make_setting_id rid
      (if truthy (pyDictGet fd "@id") then pyDictGet fd "@id" else PyVal.str "")
    function_id := if truthy (pyDictGet fd "@id") then pyDictGet fd "@id" else PyVal.str ""
    pickup_pu := (foldSettings raw).1.pickup_pu
    pickup_a := (foldSettings raw).1.pickup_a
    time_dial := (foldSettings raw).1.time_dial
    min_time_seconds := (foldSettings raw).1.min_time_seconds
    thermal_constant := (foldSettings raw).1.thermal_constant
    full_load_current := (foldSettings raw).1.full_load_current
    trip_class := (foldSettings raw).1.trip_class
    extra_json := if (foldSettings raw).2.isEmpty then Option.none
                  else some (foldSettings raw).2 }

/-- Number of raw settings pairs of a function dictionary that are not
mapped to a canonical column (zero when collection raises). -/
def unmappedCount (fd : List (String × PyVal)) : ℕ :=
  match _collect_raw_settings_for_function fd with
  | Except.ok raw => (unmappedOf raw).length
  | Except.error _ => 0

/-- The composite extension-map keys `"<parameter>.<attribute>"` of a
raw triple list, in order. -/
def compositeKeys (raw : List RawSetting) : List String :=
  raw.map (fun t => t.parameter ++ "." ++ t.attr)

/-- Whether an extraction result is a normal return (no Python
exception). -/
def exOk {α : Type} : Except String α → Bool
  | Except.ok _ => true
  | Except.error _ => false

/-- A well-formed natural identifier: a non-empty string without a
hyphen (the hyphen is the separator of every synthetic key, so a hyphen
inside a natural id can make distinct ids collide after
concatenation). -/
def goodIdVal : PyVal → Bool
  | PyVal.str s => !(s = "") && !(s.data.contains '-')
  | _ => false

/-- The `@id` attribute of a relay node (as the extractors read it). -/
def relayRid : PyVal → PyVal
  | PyVal.dict d => pyDictGet d "@id"
  | _ => PyVal.none

/-- The function nodes an extractor walks for one relay, `[]` in every
case in which a successful extraction walks nothing. -/
def relayFuncNodes : PyVal → List PyVal
  | PyVal.dict d =>
    match pyDictGet d "ProtectionFunctions" with
    | PyVal.dict pb => if pb.isEmpty then [] else ensure_list (pyDictGet pb "Function")
    | _ => []
  | _ => []

/-- The `func_id` value of one function dictionary, as
`normalize_function_settings` computes it (`func.get("@id") or ""`). -/
def funcIdVal (fd : List (String × PyVal)) : PyVal :=
  if truthy (pyDictGet fd "@id") then pyDictGet fd "@id" else PyVal.str ""

/-- The `func_id` string of one function dictionary. -/
def funcIdStr (fd : List (String × PyVal)) : String :=
  pyStr (funcIdVal fd)

/-- The setting ids that the dictionary function nodes of a list can
contribute, in order. -/
def funcSids (rid : PyVal) (funcs : List PyVal) : List String :=
  funcs.filterMap
    (fun f =>
      match f with
      | PyVal.dict fd => some (make_setting_id rid (funcIdVal fd))
      | _ => Option.none)

/-- The `func_id` strings of the dictionary function nodes of a
relay. -/
def relayFuncIds (relay : PyVal) : List String :=
  (relayFuncNodes relay).filterMap
    (fun f =>
      match f with
      | PyVal.dict fd => some (funcIdStr fd)
      | _ => Option.none)

/-- Identifier discipline for one relay: a well-formed relay id, a
well-formed `@id` on every dictionary function node, and pairwise
distinct function ids within the relay. -/
def goodRelay (relay : PyVal) : Bool :=
  goodIdVal (relayRid relay) &&
  ((relayFuncNodes relay).all
    (fun f =>
      match f with
      | PyVal.dict fd => goodIdVal (pyDictGet fd "@id")
      | _ => true)) &&
  decide (relayFuncIds relay).Nodup

/-- Identifier discipline for a whole relay list: every relay is good
and the relay ids are pairwise distinct. -/
def goodTree (relays : List PyVal) : Bool :=
  relays.all goodRelay && decide (relays.map (fun r => pyStr (relayRid r))).Nodup

/-- Whether the point extractor of one function recomputes an id that
the curve extractor also assigned: whenever the `CurvePoints` block is
truthy, the candidate curve list is non-empty and its first element is a
dictionary (so curve index 1 produces a metadata row). -/
def pointsSafe (fd : List (String × PyVal)) : Bool :=
  if truthy (pyDictGet fd "CurvePoints") then
    match curve_candidates fd with
    | Except.ok (PyVal.dict _ :: _) => true
    | _ => false
  else true

/-- Hypotheses of the amended claim C3 for one relay: a truthy relay
id, and on every dictionary function node a truthy `@id` (so
`make_curve_id` never touches the fallback counter) together with
`pointsSafe`. -/
def curvePointsAligned (relay : PyVal) : Bool :=
  truthy (relayRid relay) &&
  (relayFuncNodes relay).all
    (fun f =>
      match f with
      | PyVal.dict fd => truthy (pyDictGet fd "@id") && pointsSafe fd
      | _ => true)

/-- A block value that the extractors can walk without raising: either
a dictionary or falsy. -/
def dictOrFalsy : PyVal → Bool
  | PyVal.dict _ => true
  | v => !truthy v

/-- Structural well-formedness of one function node, enough for every
extractor to process it without raising: `Settings` and `CurvePoints`
are dictionaries when truthy, and a `Selectivity` dictionary carries a
`CoordinationMargin` that is absent or a dictionary. -/
def wfFunc : PyVal → Bool
  | PyVal.dict fd =>
    dictOrFalsy (pyDictGet fd "Settings") &&
    dictOrFalsy (pyDictGet fd "CurvePoints") &&
    (match pyDictGet fd "Selectivity" with
     | PyVal.dict sd =>
       (match pyLookup sd "CoordinationMargin" with
        | some (PyVal.dict _) => true
        | some _ => false
        | Option.none => true)
     | v => !truthy v)
  | _ => true

/-- Structural well-formedness of one relay node: the relay is a
dictionary whose `CTs`, `VTs`, `Parameters` and `ProtectionFunctions`
blocks are dictionaries when truthy, with well-formed function
nodes. -/
def wfRelay : PyVal → Bool
  | PyVal.dict d =>
    dictOrFalsy (pyDictGet d "CTs") &&
    dictOrFalsy (pyDictGet d "VTs") &&
    dictOrFalsy (pyDictGet d "Parameters") &&
    (match pyDictGet d "ProtectionFunctions" with
     | PyVal.dict pb => (ensure_list (pyDictGet pb "Function")).all wfFunc
     | v => !truthy v)
  | _ => false

/-- Structural well-formedness of a relay list. -/
def wfTree (relays : List PyVal) : Bool := relays.all wfRelay

/-- Claim C1 input: a single relay with no `@id` whose `VTs` block
carries only a flag, which drives `make_vt_id` into the `VT-AUTO`
fallback counter. -/
def exC1 : List PyVal :=
  [PyVal.dict [("VTs", PyVal.dict [("@vtDefined", PyVal.str "true")])]]

/-- Claim C2 input: relay `R1` with two protection functions that both
lack a natural `@id` but both carry a settings triple. -/
def exC2 : List PyVal :=
  [PyVal.dict [("@id", PyVal.str "R1"),
    ("ProtectionFunctions", PyVal.dict [("Function", PyVal.list
      [PyVal.dict [("Settings", PyVal.dict [("A", PyVal.dict [("@v", PyVal.str "1")])])],
       PyVal.dict [("Settings", PyVal.dict [("B", PyVal.dict [("@v", PyVal.str "2")])])]])])]]

/-- Claim C3 input: relay `R1`, function `F1` with a `CurvePoints`
block but no `Curve` node anywhere. -/
def exC3 : List PyVal :=
  [PyVal.dict [("@id", PyVal.str "R1"),
    ("ProtectionFunctions", PyVal.dict [("Function",
      PyVal.dict [("@id", PyVal.str "F1"),
        ("CurvePoints", PyVal.dict [("@base", PyVal.str "multiple"),
          ("Point", PyVal.dict
            [("@multiple", PyVal.str "2"), ("@timeSeconds", PyVal.str "1.5")])])])])]]

/-- Claim C4 input: a CT whose primary current coerces to `0` and whose
secondary coerces to `5`. -/
def exC4 : List PyVal :=
  [PyVal.dict [("@id", PyVal.str "R1"),
    ("CTs", PyVal.dict [("CT", PyVal.dict
      [("@primaryA", PyVal.str "0"), ("@secondaryA", PyVal.str "5")])])]]

/-- Claim C6 input, the scenario of the spec: function `F1` on relay
`R1` with one canonical settings triple and one unmapped one. -/
def exC6fd : List (String × PyVal) :=
  [("@id", PyVal.str "F1"),
   ("Settings", PyVal.dict
     [("PickupPerUnit", PyVal.dict [("@value", PyVal.str "1.25")]),
      ("Blocking", PyVal.dict [("@enabled", PyVal.str "true")])])]

/-- The C6 scenario packaged as a full relay list. -/
def exC6 : List PyVal :=
  [PyVal.dict [("@id", PyVal.str "R1"),
    ("ProtectionFunctions", PyVal.dict [("Function", PyVal.dict exC6fd)])]]

/-- Claim C7 input: two raw settings pairs whose composite keys
collide — parameter `A` with attribute `B.C` and parameter `A.B` with
attribute `C` both map to the key `A.B.C`. -/
def exC7fd : List (String × PyVal) :=
  [("@id", PyVal.str "F1"),
   ("Settings", PyVal.dict
     [("A", PyVal.dict [("@B.C", PyVal.str "1")]),
      ("A.B", PyVal.dict [("@C", PyVal.str "2")])])]

/-- The C7 collision packaged as a full relay list. -/
def exC7 : List PyVal :=
  [PyVal.dict [("@id", PyVal.str "R1"),
    ("ProtectionFunctions", PyVal.dict [("Function", PyVal.dict exC7fd)])]]

/-- The value `make_curve_id` returns when both parent ids are truthy:
no counter is consulted, so the id is a pure function of the inputs. -/
def curveIdPure (rid fid x : PyVal) (i : ℕ) : PyVal :=
  if truthy x then x
  else PyVal.str ("CUR-" ++ pyStr rid ++ "-" ++ pyStr fid ++ "-" ++ padZeros 2 i)

/-- Claim C2 witness input: relay `R1` with two functions `F1` and
`F2`, each carrying one settings triple. -/
def exC2w : List PyVal :=
  [PyVal.dict [("@id", PyVal.str "R1"),
    ("ProtectionFunctions", PyVal.dict [("Function", PyVal.list
      [PyVal.dict [("@id", PyVal.str "F1"),
         ("Settings", PyVal.dict [("A", PyVal.dict [("@v", PyVal.str "1")])])],
       PyVal.dict [("@id", PyVal.str "F2"),
         ("Settings", PyVal.dict [("B", PyVal.dict [("@v", PyVal.str "2")])])]])])]]

/-- Claim C3 witness input: relay `R1`, function `F1` with one curve
(natural id `C1`) and one curve point. -/
def exC3w : List PyVal :=
  [PyVal.dict [("@id", PyVal.str "R1"),
    ("ProtectionFunctions", PyVal.dict [("Function",
      PyVal.dict [("@id", PyVal.str "F1"),
        ("Curve", PyVal.dict [("@id", PyVal.str "C1"), ("@family", PyVal.str "IEC")]),
        ("CurvePoints", PyVal.dict [("@base", PyVal.str "m"),
          ("Point", PyVal.dict
            [("@multiple", PyVal.str "2"), ("@timeSeconds", PyVal.str "1.5")])])])])]]

/-- The curve row emitted for `exC3w`. -/
def exC3wCurveRow : CurveRow :=
  { curve_id := PyVal.str "C1"
    function_id := PyVal.str "F1"
    family := PyVal.str "IEC"
    type := PyVal.none
    standard := PyVal.none
    pickup_pu := Option.none
    pickup_a := Option.none
    time_dial := Option.none
    min_time_sec := Option.none
    parametric := Option.none
    extra_json := some [("id", PyVal.str "C1")] }

/-- The point row emitted for `exC3w`. -/
def exC3wPointRow : PointRow :=
  { point_id := "PT-C1-001"
    curve_id := PyVal.str "C1"
    base := PyVal.str "m"
    multiple := some (FVal.fin (mkRat 2 1))
    time_seconds := some (FVal.fin (mkRat 3 2))
    amps := Option.none
    volts := Option.none }

/-- Claim C4 witness input: a CT with primary `100` and secondary `5`
(the worked ratio example of the spec). -/
def exC4w : List PyVal :=
  [PyVal.dict [("@id", PyVal.str "R1"),
    ("CTs", PyVal.dict [("CT", PyVal.dict
      [("@primaryA", PyVal.str "100"), ("@secondaryA", PyVal.str "5")])])]]

/-- The single CT row emitted for `exC4w`. -/
def exC4wRow : CTRow :=
  { relay_id := PyVal.str "R1"
    ct_id := PyVal.str "CT-R1-01"
    location := PyVal.none
    phase := PyVal.none
    primary_a := some (FVal.fin (mkRat 100 1))
    secondary_a := some (FVal.fin (mkRat 5 1))
    ratio := some (FVal.fin (mkRat 20 1))
    class_ := PyVal.none
    burden_va := Option.none
    core_id := PyVal.none }

/-- Claim C8 witness input: a function with an id and one raw settings
triple that maps to no canonical column. -/
def exC8fd : List (String × PyVal) :=
  [("@id", PyVal.str "F8"),
   ("Settings", PyVal.dict [("Foo", PyVal.dict [("@bar", PyVal.str "x")])])]

/-- Claim C8 witness input: the same function with the settings block
entirely absent. -/
def exC8nofd : List (String × PyVal) :=
  [("@id", PyVal.str "F8")]

/-- The aggregated settings row emitted for the C6 scenario. -/
def exC6wRow : SettingRow :=
  { setting_id := "SET-R1-F1"
    function_id := PyVal.str "F1"
    pickup_pu := some (FVal.fin (mkRat 5 4))
    pickup_a := Option.none
    time_dial := Option.none
    min_time_seconds := Option.none
    thermal_constant := Option.none
    full_load_current := Option.none
    trip_class := Option.none
    extra_json := some [("PickupPerUnit.value", PyVal.str "1.25"),
                        ("Blocking.enabled", PyVal.str "true")] }

/-- Claim C7 witness input: a function with two raw settings pairs
whose composite keys are distinct. -/
def exC7wfd : List (String × PyVal) :=
  [("@id", PyVal.str "F7"),
   ("Settings", PyVal.dict
     [("P1", PyVal.dict [("@a", PyVal.str "x")]),
      ("P2", PyVal.dict [("@b", PyVal.str "y")])])]

/-- Claim C9 input: a relay whose `CTs` block is a truthy string, so
`cts_block.get("CT")` raises `AttributeError`. -/
def exC9 : List PyVal :=
  [PyVal.dict [("@id", PyVal.str "R1"), ("CTs", PyVal.str "boom")]]

/-- Claim C9 witness input: a well-formed tree exercising the skipping
paths - a stray string among the CT nodes, a string among the function
nodes, absent `VTs`, `CurvePoints` and `CoordinationMargin` blocks, and
a second relay with no blocks at all. -/
def exC9w : List PyVal :=
  [PyVal.dict [("@id", PyVal.str "R1"),
     ("CTs", PyVal.dict [("CT", PyVal.list
       [PyVal.dict [("@id", PyVal.str "CT1")], PyVal.str "stray"])]),
     ("ProtectionFunctions", PyVal.dict [("Function", PyVal.list
       [PyVal.dict [("@id", PyVal.str "F1"),
          ("Settings", PyVal.dict [("P", PyVal.dict [("@v", PyVal.str "1")])]),
          ("Selectivity", PyVal.dict
            [("DownstreamDevice", PyVal.dict [("@id", PyVal.str "D1")])])],
        PyVal.str "junk"])])],
   PyVal.dict []]

/-- Claim C10 input: a CT whose `@primaryA` is already a numeric NaN
(as a tree parser could hand over), not text. -/
def exC10 : List PyVal :=
  [PyVal.dict [("@id", PyVal.str "R1"),
    ("CTs", PyVal.dict [("CT", PyVal.dict [("@primaryA", PyVal.nan)])])]]

/-!  Theorems settling the claims, together with their supporting
lemmas. -/

/-- The kernel-computable negation agrees with rational negation. -/
theorem qNeg_eq (q : ℚ) : qNeg q = -q := by
  rw [qNeg, Rat.mkRat_eq_div]
  push_cast
  rw [neg_div, Rat.num_div_den]

/-- The kernel-computable division agrees with rational division. -/
theorem qDiv_eq (a b : ℚ) : qDiv a b = a / b := by
  rcases lt_trichotomy b.num 0 with hb | hb | hb
  · rw [qDiv, if_pos hb, Rat.mkRat_eq_div]
    have habs : ((b.num.natAbs : ℚ)) = -(b.num : ℚ) := by
      rw [← Int.cast_natCast (R := ℚ), Int.ofNat_natAbs_of_nonpos (le_of_lt hb), Int.cast_neg]
    push_cast
    rw [habs]
    conv_rhs => rw [← Rat.num_div_den a, ← Rat.num_div_den b]
    have hbn : (b.num : ℚ) ≠ 0 := Int.cast_ne_zero.mpr (ne_of_lt hb)
    have had : (a.den : ℚ) ≠ 0 := Nat.cast_ne_zero.mpr (Rat.den_ne_zero a)
    have hbd : (b.den : ℚ) ≠ 0 := Nat.cast_ne_zero.mpr (Rat.den_ne_zero b)
    field_simp
  · have hb0 : b = 0 := Rat.zero_iff_num_zero.mpr hb
    rw [qDiv, if_neg (by rw [hb]; exact lt_irrefl 0), hb0]
    simp [Rat.mkRat_eq_div, hb]
  · rw [qDiv, if_neg (not_lt.mpr (le_of_lt hb)), Rat.mkRat_eq_div]
    have habs : ((b.num.natAbs : ℚ)) = (b.num : ℚ) := by
      rw [← Int.cast_natCast (R := ℚ), Int.natAbs_of_nonneg (le_of_lt hb)]
    push_cast
    rw [habs]
    conv_rhs => rw [← Rat.num_div_den a, ← Rat.num_div_den b]
    have hbn : (b.num : ℚ) ≠ 0 := Int.cast_ne_zero.mpr (ne_of_gt hb)
    have had : (a.den : ℚ) ≠ 0 := Nat.cast_ne_zero.mpr (Rat.den_ne_zero a)
    have hbd : (b.den : ℚ) ≠ 0 := Nat.cast_ne_zero.mpr (Rat.den_ne_zero b)
    field_simp

/-- The kernel-computable scaled-decimal constructor agrees with
division by a power of ten. -/
theorem qOfScaled_eq (m k : ℕ) : qOfScaled m k = (m : ℚ) / 10 ^ k := by
  rw [qOfScaled, Rat.mkRat_eq_div]
  push_cast
  ring

/-- The kernel-computable exponent application agrees with
multiplication by an integer power of ten. -/
theorem applyExp_eq (m : ℚ) (e : ℤ) : applyExp m e = m * (10 : ℚ) ^ e := by
  rcases le_or_lt 0 e with he | he
  · rw [applyExp, if_pos he, Rat.mkRat_eq_div]
    have h10 : (10 : ℚ) ^ e = (10 : ℚ) ^ e.toNat := by
      rw [← zpow_natCast, Int.toNat_of_nonneg he]
    rw [h10]
    conv_rhs => rw [← Rat.num_div_den m]
    have had : (m.den : ℚ) ≠ 0 := Nat.cast_ne_zero.mpr (Rat.den_ne_zero m)
    push_cast
    field_simp
  · rw [applyExp, if_neg (not_le.mpr he), Rat.mkRat_eq_div]
    have h10 : (10 : ℚ) ^ e = ((10 : ℚ) ^ (-e).toNat)⁻¹ := by
      rw [← zpow_natCast, Int.toNat_of_nonneg (by omega : (0 : ℤ) ≤ -e), zpow_neg, inv_inv]
    rw [h10]
    conv_rhs => rw [← Rat.num_div_den m]
    have had : (m.den : ℚ) ≠ 0 := Nat.cast_ne_zero.mpr (Rat.den_ne_zero m)
    have h10n : ((10 : ℚ) ^ (-e).toNat) ≠ 0 := pow_ne_zero _ (by norm_num)
    push_cast
    field_simp

/-- The ratio column of a CT row is exactly the guarded quotient of its
coerced primary and secondary columns. -/
theorem ctRow_ratio_eq (rid : PyVal) (idx : ℕ) (cd : List (String × PyVal)) :
    (ctRow rid idx cd).ratio
      = (match (ctRow rid idx cd).primary_a, (ctRow rid idx cd).secondary_a with
         | some p, some s => if ftruthy p && ftruthy s then some (fvalDiv p s) else Option.none
         | _, _ => Option.none) :=
  rfl

/-- Every row of the inner CT loop is a `ctRow` of the relay id. -/
theorem mem_cts_items (rid : PyVal) :
    ∀ (l : List PyVal) (idx : ℕ) (r : CTRow), r ∈ cts_items rid idx l →
      ∃ j cd, r = ctRow rid j cd := by
  intro l
  induction l with
  | nil => intro idx r h; simp [cts_items] at h
  | cons x xs ih =>
    intro idx r h
    cases x with
    | dict cd =>
      rw [cts_items] at h
      rcases List.mem_cons.mp h with h₁ | h₂
      · exact ⟨idx, cd, h₁⟩
      · exact ih _ r h₂
    | str s => exact ih _ r h
    | num q => exact ih _ r h
    | nan => exact ih _ r h
    | inf b => exact ih _ r h
    | none => exact ih _ r h
    | list l₂ => exact ih _ r h

/-- Every row of the per-relay CT extraction is a `ctRow`. -/
theorem mem_cts_relay (relay : PyVal) (rows : List CTRow)
    (h : cts_relay relay = Except.ok rows) :
    ∀ r ∈ rows, ∃ rid j cd, r = ctRow rid j cd := by
  cases relay with
  | dict d =>
    rw [cts_relay] at h
    by_cases ht : truthy (pyDictGet d "CTs")
    · rw [if_pos ht] at h
      cases hb : pyDictGet d "CTs" with
      | dict cb =>
        rw [hb] at h
        cases h
        intro r hr
        obtain ⟨j, cd, hj⟩ := mem_cts_items (pyDictGet d "@id") _ 1 r hr
        exact ⟨pyDictGet d "@id", j, cd, hj⟩
      | str s => rw [hb] at h; cases h
      | num q => rw [hb] at h; cases h
      | nan => rw [hb] at h; cases h
      | inf b => rw [hb] at h; cases h
      | none => rw [hb] at h; cases h
      | list l => rw [hb] at h; cases h
    · rw [if_neg ht] at h
      cases h
      intro r hr
      simp at hr
  | str s => cases h
  | num q => cases h
  | nan => cases h
  | inf b => cases h
  | none => cases h
  | list l => cases h

/-- Every row of `normalize_cts` is a `ctRow`. -/
theorem mem_normalize_cts :
    ∀ (relays : List PyVal) (rows : List CTRow), normalize_cts relays = Except.ok rows →
      ∀ r ∈ rows, ∃ rid j cd, r = ctRow rid j cd := by
  intro relays
  induction relays with
  | nil =>
    intro rows h
    cases h
    intro r hr
    simp at hr
  | cons relay rest ih =>
    intro rows h
    rw [normalize_cts] at h
    cases hr₁ : cts_relay relay with
    | error e => rw [hr₁] at h; cases h
    | ok rows₁ =>
      rw [hr₁] at h
      cases hr₂ : normalize_cts rest with
      | error e => rw [hr₂] at h; cases h
      | ok rows₂ =>
        rw [hr₂] at h
        cases h
        intro r hr
        rcases List.mem_append.mp hr with h₁ | h₂
        · exact mem_cts_relay relay rows₁ hr₁ r h₁
        · exact ih rows₂ hr₂ r h₂

/-- Claim C4 (amended): within every emitted CT row, the ratio is
present exactly when both coerced currents are present and truthy
(non-zero in Python's sense — so a primary of `0` also yields an absent
ratio), and in that case it equals the quotient of the two coerced
values. -/
theorem C4_ratio_guarded_quotient :
    ∀ relays rows, normalize_cts relays = Except.ok rows → ∀ r ∈ rows,
      ((r.ratio = Option.none) ↔ (optTruthy r.primary_a && optTruthy r.secondary_a) = false) ∧
      (∀ p s, r.primary_a = some p → r.secondary_a = some s →
        ftruthy p = true → ftruthy s = true → r.ratio = some (fvalDiv p s)) := by
  intro relays rows h r hr
  obtain ⟨rid, j, cd, rfl⟩ := mem_normalize_cts relays rows h r hr
  have e := ctRow_ratio_eq rid j cd
  constructor
  · rw [e]
    cases hp : (ctRow rid j cd).primary_a with
    | none => simp [optTruthy]
    | some p =>
      cases hs : (ctRow rid j cd).secondary_a with
      | none => simp [optTruthy]
      | some s =>
        cases hfp : ftruthy p <;> cases hfs : ftruthy s <;>
          simp [optTruthy, hfp, hfs]
  · intro p s hp hs hfp hfs
    rw [e, hp, hs]
    simp [hfp, hfs]

/-- Claim C4 witness: on the spec's worked example (primary `100`,
secondary `5`) the emitted ratio is present and equals `20`; the
amended theorem applied to that concrete row confirms the guarded-quotient
shape. -/
theorem C4_ratio_guarded_quotient_witness :
    normalize_cts exC4w = Except.ok [exC4wRow] ∧
    ((exC4wRow.ratio = Option.none) ↔
      (optTruthy exC4wRow.primary_a && optTruthy exC4wRow.secondary_a) = false) ∧
    fvalDiv (FVal.fin (mkRat 100 1)) (FVal.fin (mkRat 5 1)) = FVal.fin (mkRat 20 1) :=
  have h : normalize_cts exC4w = Except.ok [exC4wRow] := rfl
  ⟨h,
   (C4_ratio_guarded_quotient exC4w [exC4wRow] h exC4wRow (by simp)).1,
   by decide⟩

/-- Claim C1 (code bug, evaluated at the failing input): the module
keeps `_ID_COUNTERS` at module level and `run_normalize_pipeline` never
reinitializes it, so running the full pass twice in the same process on
the unchanged tree `exC1` does not yield identical record sets — the
first run emits the synthetic key `VT-AUTO-000001` and the second run,
starting from the counter state the first one left behind, emits
`VT-AUTO-000002`. -/
theorem C1_second_run_differs :
    runVtIds (run_tables exC1 Counters.start) = ["VT-AUTO-000001"] ∧
    runVtIds (run_tables exC1 (runEndState Counters.start (run_tables exC1 Counters.start)))
      = ["VT-AUTO-000002"] ∧
    ("VT-AUTO-000001" : String) ≠ "VT-AUTO-000002" :=
  ⟨rfl, rfl, by decide⟩

/-- Claim C5 (code bug, evaluated at the failing inputs): the infinity
token set of `safe_float` is checked case-sensitively, so the lowercase
tokens are absorbed to absent but `"INF"` and `"Infinity"` fall through
to `float()` and come back as genuine infinities, contradicting the
function's own docstring (`"∞" ou "INF" → None`). -/
theorem C5_uppercase_inf_leaks :
    safe_float (PyVal.str "INF") = some (FVal.inf true) ∧
    safe_float (PyVal.str "Infinity") = some (FVal.inf true) ∧
    safe_float (PyVal.str "-Infinity") = some (FVal.inf false) ∧
    safe_float (PyVal.str "inf") = Option.none ∧
    safe_float (PyVal.str "+inf") = Option.none ∧
    safe_float (PyVal.str "-inf") = Option.none ∧
    safe_float (PyVal.str "∞") = Option.none ∧
    safe_float (PyVal.str "+∞") = Option.none ∧
    safe_float (PyVal.str "-∞") = Option.none :=
  ⟨rfl, rfl, rfl, rfl, rfl, rfl, rfl, rfl, rfl⟩

/-- Claim C10 (confirmed): a value that is already numeric passes
through `safe_float` as `float(value)` unchanged — including a numeric
NaN or infinity — and such a value flows through to the emitted row, as
the CT row built from a numeric-NaN `@primaryA` shows. -/
theorem C10_numeric_passthrough :
    (∀ q : ℚ, safe_float (PyVal.num q) = some (FVal.fin q)) ∧
    safe_float PyVal.nan = some FVal.nan ∧
    (∀ b : Bool, safe_float (PyVal.inf b) = some (FVal.inf b)) ∧
    ctPrimaries (normalize_cts exC10) = [some FVal.nan] :=
  ⟨fun _ => rfl, rfl, fun _ => rfl, rfl⟩

/-- Claim C2 (counterexample): on a relay `R1` with two functions that
both lack a natural `@id`, both aggregated settings rows receive the
primary key `SET-R1-`, so the `setting_id` column is not pairwise
distinct. -/
theorem C2_cex_duplicate_setting_ids :
    settingIds (normalize_function_settings exC2) = ["SET-R1-", "SET-R1-"] ∧
    ¬ (settingIds (normalize_function_settings exC2)).Nodup :=
  ⟨rfl, by decide⟩

/-- Claim C3 (counterexample): a function with a `CurvePoints` block
but no `Curve` node emits point rows whose recomputed `curve_id`
(`CUR-R1-F1-01`) matches no row of the Curve table, which is empty. -/
theorem C3_cex_orphan_points :
    runCurveIds (run_tables exC3 Counters.start) = [] ∧
    runPointCurveIds (run_tables exC3 Counters.start) = ["CUR-R1-F1-01"] ∧
    "CUR-R1-F1-01" ∉ runCurveIds (run_tables exC3 Counters.start) :=
  ⟨rfl, rfl, by decide⟩

/-- Claim C4 (counterexample): a CT whose `@primaryA` coerces to the
present number `0` and whose `@secondaryA` coerces to the present,
non-zero number `5` still gets an absent ratio, because the guard
`primary and secondary` treats the float `0.0` as falsy. -/
theorem C4_cex_zero_primary :
    ctNumericTriples (normalize_cts exC4)
      = [(some (FVal.fin 0), some (FVal.fin 5), Option.none)] := by
  decide

/-- Claim C6 (counterexample, the spec's own scenario): the function
with the mapped triple `(PickupPerUnit, value, "1.25")` and the
unmapped triple `(Blocking, enabled, "true")` has exactly one unmapped
pair, yet its emitted extension map holds two entries — the mapped
triple is recorded there as well, so the map is not
`{"Blocking.enabled": "true"}` alone. -/
theorem C6_cex_mapped_pair_in_extra :
    extraMaps (normalize_function_settings exC6)
      = [[("PickupPerUnit.value", PyVal.str "1.25"),
          ("Blocking.enabled", PyVal.str "true")]] ∧
    unmappedCount exC6fd = 1 ∧
    (extraMaps (normalize_function_settings exC6)).map List.length = [2] ∧
    (1 : ℕ) ≠ 2 :=
  ⟨rfl, rfl, rfl, by decide⟩

/-- Claim C7 (counterexample): the composite keys of the flattened
triples `(A, B.C, "1")` and `(A.B, C, "2")` collide on `A.B.C`, so the
second dictionary assignment overwrites the first and the triple
`(A, B.C, "1")` does not appear in the emitted extension map with its
original value. -/
theorem C7_cex_composite_key_collision :
    _collect_raw_settings_for_function exC7fd
      = Except.ok [⟨"A", "B.C", PyVal.str "1"⟩, ⟨"A.B", "C", PyVal.str "2"⟩] ∧
    extraMaps (normalize_function_settings exC7) = [[("A.B.C", PyVal.str "2")]] ∧
    pyLookup [("A.B.C", PyVal.str "2")] ("A" ++ "." ++ "B.C") = some (PyVal.str "2") ∧
    PyVal.str "2" ≠ PyVal.str "1" := by
  refine ⟨rfl, rfl, rfl, ?_⟩
  intro h
  injection h with h₁
  exact absurd h₁ (by decide)

/-- Claim C9 (counterexample): a relay whose `CTs` block is a truthy
string is malformed optional data, yet `normalize_cts` raises
`AttributeError` on `cts_block.get("CT")` instead of skipping it. -/
theorem C9_cex_string_block_raises :
    normalize_cts exC9 = Except.error "AttributeError" :=
  rfl

/-- Unfolding of the per-function settings extraction once the raw
triples are known. -/
theorem settings_rows_unfold (rid : PyVal) (fd : List (String × PyVal))
    (raw : List RawSetting) (h : _collect_raw_settings_for_function fd = Except.ok raw) :
    settings_rows_for_function rid fd
      = if raw.isEmpty then Except.ok [] else Except.ok [aggRow rid fd raw] := by
  rw [settings_rows_for_function, h]
  rfl

/-- Claim C8 (confirmed): per function, `normalize_function_settings`
emits no row when the settings block is absent (or flattens to no
triples), and exactly one aggregated row keyed `SET-<relayId>-<funcId>`
as soon as at least one raw triple exists, mapped or not. -/
theorem C8_one_aggregated_row :
    ∀ relay_id fd raw, _collect_raw_settings_for_function fd = Except.ok raw →
      (pyDictGet fd "Settings" = PyVal.none → raw = []) ∧
      (raw = [] → settings_rows_for_function relay_id fd = Except.ok []) ∧
      (raw ≠ [] → ∃ row, settings_rows_for_function relay_id fd = Except.ok [row] ∧
        row.setting_id = make_setting_id relay_id
          (if truthy (pyDictGet fd "@id") then pyDictGet fd "@id" else PyVal.str "")) := by
  intro relay_id fd raw h
  refine ⟨?_, ?_, ?_⟩
  · intro hs
    rw [_collect_raw_settings_for_function, hs] at h
    simp [truthy] at h
    exact h
  · intro hraw
    rw [settings_rows_unfold relay_id fd raw h, hraw]
    simp
  · intro hraw
    have hE : raw.isEmpty = false := by
      cases raw with
      | nil => exact absurd rfl hraw
      | cons a as => rfl
    rw [settings_rows_unfold relay_id fd raw h, hE]
    rw [if_neg Bool.false_ne_true]
    exact ⟨_, rfl, rfl⟩

/-- Claim C8 witness: the function `F8` of relay `R8` with a single
unmapped triple gets exactly one row keyed `SET-R8-F8`, and the same
function without a settings block gets none. -/
theorem C8_one_aggregated_row_witness :
    _collect_raw_settings_for_function exC8fd = Except.ok [⟨"Foo", "bar", PyVal.str "x"⟩] ∧
    (∃ row, settings_rows_for_function (PyVal.str "R8") exC8fd = Except.ok [row] ∧
      row.setting_id = make_setting_id (PyVal.str "R8")
        (if truthy (pyDictGet exC8fd "@id") then pyDictGet exC8fd "@id" else PyVal.str "")) ∧
    make_setting_id (PyVal.str "R8") (PyVal.str "F8") = "SET-R8-F8" ∧
    _collect_raw_settings_for_function exC8nofd = Except.ok [] ∧
    settings_rows_for_function (PyVal.str "R8") exC8nofd = Except.ok [] :=
  have h₁ : _collect_raw_settings_for_function exC8fd
      = Except.ok [⟨"Foo", "bar", PyVal.str "x"⟩] := rfl
  have h₂ : _collect_raw_settings_for_function exC8nofd = Except.ok [] := rfl
  ⟨h₁,
   (C8_one_aggregated_row (PyVal.str "R8") exC8fd _ h₁).2.2 (List.cons_ne_nil _ _),
   rfl,
   h₂,
   (C8_one_aggregated_row (PyVal.str "R8") exC8nofd [] h₂).2.1 rfl⟩

/-- Inserting one grouped item is, up to permutation, appending the
corresponding triple to the flattened groups. -/
theorem flattenGroups_addToGroup (acc : List (String × List (String × PyVal)))
    (p : String) (item : String × PyVal) :
    (flattenGroups (addToGroup acc p item)).Perm
      (flattenGroups acc ++ [⟨p, item.1, item.2⟩]) := by
  induction acc with
  | nil => simp [addToGroup, flattenGroups]
  | cons g rest ih =>
    obtain ⟨k, l⟩ := g
    rw [addToGroup]
    by_cases hk : k = p
    · subst hk
      rw [if_pos rfl]
      simp only [flattenGroups, List.map_append, List.map_cons, List.map_nil]
      rw [List.append_assoc, List.append_assoc]
      exact List.Perm.append_left _ ((List.perm_append_singleton _ _).symm)
    · rw [if_neg hk]
      simp only [flattenGroups]
      rw [List.append_assoc]
      exact List.Perm.append_left _ ih

/-- Folding the grouping step over a triple list permutes the triples
onto the end of the flattened accumulator. -/
theorem flattenGroups_foldl (raw : List RawSetting) :
    ∀ acc : List (String × List (String × PyVal)),
      (flattenGroups
        (raw.foldl (fun a t => addToGroup a t.parameter (t.attr, t.value)) acc)).Perm
        (flattenGroups acc ++ raw) := by
  induction raw with
  | nil => intro acc; simp
  | cons t ts ih =>
    intro acc
    rw [List.foldl_cons]
    refine (ih (addToGroup acc t.parameter (t.attr, t.value))).trans ?_
    have h₁ := flattenGroups_addToGroup acc t.parameter (t.attr, t.value)
    refine (h₁.append_right ts).trans ?_
    simp

/-- The aggregation loop visits, up to permutation, exactly the raw
triples. -/
theorem flattenGroups_groupByParam (raw : List RawSetting) :
    (flattenGroups (groupByParam raw)).Perm raw := by
  have h := flattenGroups_foldl raw []
  simpa [flattenGroups] using h

/-- The extension-map component of the aggregation fold is the fold of
the dictionary assignments alone. -/
theorem foldSettings_snd (l : List RawSetting) :
    ∀ st : CanonFields × List (String × PyVal),
      (l.foldl settingsStep st).2
        = l.foldl (fun d t => dictAssign d (t.parameter ++ "." ++ t.attr) t.value) st.2 := by
  induction l with
  | nil => intro st; rfl
  | cons t ts ih =>
    intro st
    rw [List.foldl_cons, List.foldl_cons, ih]
    rfl

/-- Assigning a fresh key appends the pair at the end of the
dictionary. -/
theorem dictAssign_fresh (d : List (String × PyVal)) (k : String) (v : PyVal)
    (h : k ∉ d.map Prod.fst) : dictAssign d k v = d ++ [(k, v)] := by
  induction d with
  | nil => rfl
  | cons kv rest ih =>
    obtain ⟨k₀, v₀⟩ := kv
    rw [dictAssign]
    simp only [List.map_cons, List.mem_cons, not_or] at h
    rw [if_neg (Ne.symm h.1)]
    rw [ih h.2]
    simp

/-- Folding dictionary assignments over pairwise-fresh keys appends the
pairs in order. -/
theorem foldl_dictAssign_fresh (l : List RawSetting) :
    ∀ d : List (String × PyVal),
      (d.map Prod.fst ++ l.map (fun t => t.parameter ++ "." ++ t.attr)).Nodup →
      l.foldl (fun d t => dictAssign d (t.parameter ++ "." ++ t.attr) t.value) d
        = d ++ l.map (fun t => (t.parameter ++ "." ++ t.attr, t.value)) := by
  induction l with
  | nil => intro d _; simp
  | cons t ts ih =>
    intro d h
    rw [List.foldl_cons]
    have hmem : (t.parameter ++ "." ++ t.attr) ∉ d.map Prod.fst := by
      intro hx
      rcases List.nodup_append.mp h with ⟨_, _, hdisj⟩
      exact hdisj hx (by simp)
    rw [dictAssign_fresh d _ t.value hmem]
    have h₂ : ((d ++ [(t.parameter ++ "." ++ t.attr, t.value)]).map Prod.fst ++
        ts.map (fun t => t.parameter ++ "." ++ t.attr)).Nodup := by
      simpa [List.append_assoc] using h
    rw [ih _ h₂]
    simp

/-- Looking up a key with pairwise-distinct keys finds the stored
value. -/
theorem pyLookup_of_mem (pairs : List (String × PyVal))
    (hnd : (pairs.map Prod.fst).Nodup) (k : String) (v : PyVal)
    (hmem : (k, v) ∈ pairs) : pyLookup pairs k = some v := by
  induction pairs with
  | nil => simp at hmem
  | cons kv rest ih =>
    obtain ⟨k₀, v₀⟩ := kv
    rcases List.mem_cons.mp hmem with h₁ | h₂
    · obtain ⟨hk, hv⟩ := Prod.mk.injEq .. ▸ h₁
      rw [pyLookup, if_pos hk.symm, hv]
    · simp only [List.map_cons, List.nodup_cons] at hnd
      have hk : k₀ ≠ k := by
        intro he
        exact hnd.1 (he ▸ (List.mem_map.mpr ⟨(k, v), h₂, rfl⟩))
      rw [pyLookup, if_neg hk]
      exact ih hnd.2 h₂

/-- The extension map of the one aggregated row: with pairwise-distinct
composite keys it holds exactly one entry per raw triple, in the order
the aggregation loop visits them. -/
theorem settings_row_extra (fd : List (String × PyVal)) (raw : List RawSetting)
    (h : _collect_raw_settings_for_function fd = Except.ok raw) (hne : raw ≠ [])
    (hk : (compositeKeys raw).Nodup) (rid : PyVal) :
    ∃ row, settings_rows_for_function rid fd = Except.ok [row] ∧
      row.extra_json.getD []
        = (flattenGroups (groupByParam raw)).map
            (fun t => (t.parameter ++ "." ++ t.attr, t.value)) := by
  have hperm : (flattenGroups (groupByParam raw)).Perm raw := flattenGroups_groupByParam raw
  have hknd : ((flattenGroups (groupByParam raw)).map
      (fun t => t.parameter ++ "." ++ t.attr)).Nodup :=
    ((hperm.map _).nodup_iff).mpr hk
  have hins : (flattenGroups (groupByParam raw)) ≠ [] := by
    intro hx
    exact hne (List.Perm.nil_eq (hx ▸ hperm)).symm
  have hfold : (foldSettings raw).2
      = (flattenGroups (groupByParam raw)).map
          (fun t => (t.parameter ++ "." ++ t.attr, t.value)) := by
    rw [foldSettings, foldSettings_snd]
    have := foldl_dictAssign_fresh (flattenGroups (groupByParam raw)) []
      (by simpa using hknd)
    simpa using this
  have hE : raw.isEmpty = false := by
    cases raw with
    | nil => exact absurd rfl hne
    | cons a as => rfl
  have hE2 : ((flattenGroups (groupByParam raw)).map
      (fun t => (t.parameter ++ "." ++ t.attr, t.value))).isEmpty = false := by
    rcases hx : flattenGroups (groupByParam raw) with _ | ⟨a, as⟩
    · exact absurd hx hins
    · rfl
  rw [settings_rows_unfold rid fd raw h, hE]
  rw [if_neg Bool.false_ne_true]
  refine ⟨_, rfl, ?_⟩
  simp only [aggRow]
  rw [hfold, hE2]
  rw [if_neg Bool.false_ne_true]
  rfl

/-- Looking up a triple's composite key in the assembled extension map
finds its value, provided the composite keys are pairwise distinct. -/
theorem extra_lookup_of_mem (raw : List RawSetting) (hk : (compositeKeys raw).Nodup)
    (t : RawSetting) (ht : t ∈ raw) :
    pyLookup
      ((flattenGroups (groupByParam raw)).map
        (fun t => (t.parameter ++ "." ++ t.attr, t.value)))
      (t.parameter ++ "." ++ t.attr) = some t.value := by
  have hperm := flattenGroups_groupByParam raw
  have htmem : t ∈ flattenGroups (groupByParam raw) := hperm.symm.subset ht
  have hpair : (t.parameter ++ "." ++ t.attr, t.value)
      ∈ (flattenGroups (groupByParam raw)).map
          (fun t => (t.parameter ++ "." ++ t.attr, t.value)) :=
    List.mem_map.mpr ⟨t, htmem, rfl⟩
  have hknd : (((flattenGroups (groupByParam raw)).map
      (fun t => (t.parameter ++ "." ++ t.attr, t.value))).map Prod.fst).Nodup := by
    rw [List.map_map]
    have hk' : (raw.map (fun t : RawSetting => t.parameter ++ "." ++ t.attr)).Nodup := hk
    have hx :=
      ((hperm.map (fun t : RawSetting => t.parameter ++ "." ++ t.attr)).nodup_iff).mpr hk'
    simpa [Function.comp] using hx
  exact pyLookup_of_mem _ hknd _ _ hpair

/-- Claim C6 (amended): for a settings bag whose flattened triples have
pairwise-distinct composite keys, the emitted extension map holds
exactly one entry per raw (parameter, attribute) pair — mapped or not —
and every unmapped pair is recoverable under its composite key. -/
theorem C6_extension_map_exact :
    ∀ fd raw rid, _collect_raw_settings_for_function fd = Except.ok raw → raw ≠ [] →
      (compositeKeys raw).Nodup →
      ∃ row, settings_rows_for_function rid fd = Except.ok [row] ∧
        (row.extra_json.getD []).length = raw.length ∧
        ∀ t ∈ unmappedOf raw,
          pyLookup (row.extra_json.getD []) (t.parameter ++ "." ++ t.attr)
            = some t.value := by
  intro fd raw rid h hne hk
  obtain ⟨row, hrow, hextra⟩ := settings_row_extra fd raw h hne hk rid
  refine ⟨row, hrow, ?_, ?_⟩
  · rw [hextra, List.length_map]
    exact (flattenGroups_groupByParam raw).length_eq
  · intro t ht
    rw [hextra]
    exact extra_lookup_of_mem raw hk t (List.mem_of_mem_filter ht)

/-- Claim C6 witness: on the spec's scenario the aggregated row has
`pickup_pu = 1.25` and an extension map with one entry per raw pair
(two entries), from which the unmapped `Blocking.enabled` pair is
recoverable. -/
theorem C6_extension_map_exact_witness :
    _collect_raw_settings_for_function exC6fd
      = Except.ok [⟨"PickupPerUnit", "value", PyVal.str "1.25"⟩,
                   ⟨"Blocking", "enabled", PyVal.str "true"⟩] ∧
    (compositeKeys [⟨"PickupPerUnit", "value", PyVal.str "1.25"⟩,
                    ⟨"Blocking", "enabled", PyVal.str "true"⟩]).Nodup ∧
    (∃ row, settings_rows_for_function (PyVal.str "R1") exC6fd = Except.ok [row] ∧
      (row.extra_json.getD []).length
        = ([⟨"PickupPerUnit", "value", PyVal.str "1.25"⟩,
            ⟨"Blocking", "enabled", PyVal.str "true"⟩] : List RawSetting).length ∧
      ∀ t ∈ unmappedOf [⟨"PickupPerUnit", "value", PyVal.str "1.25"⟩,
                        ⟨"Blocking", "enabled", PyVal.str "true"⟩],
        pyLookup (row.extra_json.getD []) (t.parameter ++ "." ++ t.attr)
          = some t.value) ∧
    settings_rows_for_function (PyVal.str "R1") exC6fd = Except.ok [exC6wRow] ∧
    exC6wRow.pickup_pu = some (FVal.fin (mkRat 5 4)) :=
  have h : _collect_raw_settings_for_function exC6fd
      = Except.ok [⟨"PickupPerUnit", "value", PyVal.str "1.25"⟩,
                   ⟨"Blocking", "enabled", PyVal.str "true"⟩] := rfl
  have hk : (compositeKeys [⟨"PickupPerUnit", "value", PyVal.str "1.25"⟩,
      ⟨"Blocking", "enabled", PyVal.str "true"⟩]).Nodup := by decide
  ⟨h, hk,
   C6_extension_map_exact exC6fd _ (PyVal.str "R1") h (List.cons_ne_nil _ _) hk,
   rfl, rfl⟩

/-- Claim C7 (amended): provided the composite keys of the flattened
triples are pairwise distinct, every triple — whether or not its
parameter maps to a canonical column — appears in the emitted row's
extension map under `"<parameter>.<attribute>"` with its original raw
value. -/
theorem C7_triples_in_extension_map :
    ∀ fd raw rid, _collect_raw_settings_for_function fd = Except.ok raw →
      (compositeKeys raw).Nodup →
      ∀ t ∈ raw, ∃ row, settings_rows_for_function rid fd = Except.ok [row] ∧
        pyLookup (row.extra_json.getD []) (t.parameter ++ "." ++ t.attr)
          = some t.value := by
  intro fd raw rid h hk t ht
  have hne : raw ≠ [] := by
    intro hx
    rw [hx] at ht
    simp at ht
  obtain ⟨row, hrow, hextra⟩ := settings_row_extra fd raw h hne hk rid
  refine ⟨row, hrow, ?_⟩
  rw [hextra]
  exact extra_lookup_of_mem raw hk t ht

/-- Claim C7 witness: both triples of the function `F7`, the mapped and
the unmapped alike, are recoverable from the extension map of its one
aggregated row. -/
theorem C7_triples_in_extension_map_witness :
    _collect_raw_settings_for_function exC7wfd
      = Except.ok [⟨"P1", "a", PyVal.str "x"⟩, ⟨"P2", "b", PyVal.str "y"⟩] ∧
    (compositeKeys [⟨"P1", "a", PyVal.str "x"⟩, ⟨"P2", "b", PyVal.str "y"⟩]).Nodup ∧
    (∃ row, settings_rows_for_function (PyVal.str "R7") exC7wfd = Except.ok [row] ∧
      pyLookup (row.extra_json.getD []) ("P1" ++ "." ++ "a") = some (PyVal.str "x")) ∧
    (∃ row, settings_rows_for_function (PyVal.str "R7") exC7wfd = Except.ok [row] ∧
      pyLookup (row.extra_json.getD []) ("P2" ++ "." ++ "b") = some (PyVal.str "y")) :=
  have h : _collect_raw_settings_for_function exC7wfd
      = Except.ok [⟨"P1", "a", PyVal.str "x"⟩, ⟨"P2", "b", PyVal.str "y"⟩] := rfl
  have hk : (compositeKeys [⟨"P1", "a", PyVal.str "x"⟩,
      ⟨"P2", "b", PyVal.str "y"⟩]).Nodup := by decide
  ⟨h, hk,
   C7_triples_in_extension_map exC7wfd _ (PyVal.str "R7") h hk
     ⟨"P1", "a", PyVal.str "x"⟩ (by simp),
   C7_triples_in_extension_map exC7wfd _ (PyVal.str "R7") h hk
     ⟨"P2", "b", PyVal.str "y"⟩ (by simp)⟩

/-- Concatenation around a separator is injective when neither left
part contains the separator. -/
theorem sep_append_inj :
    ∀ (a b t u : List Char), '-' ∉ a → '-' ∉ b →
      a ++ '-' :: t = b ++ '-' :: u → a = b ∧ t = u := by
  intro a
  induction a with
  | nil =>
    intro b t u _ hb h
    cases b with
    | nil =>
      simp only [List.nil_append] at h
      exact ⟨rfl, (List.cons.injEq .. ▸ h).2⟩
    | cons c bs =>
      simp only [List.nil_append, List.cons_append] at h
      obtain ⟨hc, _⟩ := List.cons.injEq .. ▸ h
      exact absurd (hc ▸ List.mem_cons_self c bs) hb
  | cons c as ih =>
    intro b t u ha hb h
    cases b with
    | nil =>
      simp only [List.cons_append, List.nil_append] at h
      obtain ⟨hc, _⟩ := List.cons.injEq .. ▸ h
      exact absurd (hc ▸ List.mem_cons_self c as) ha
    | cons c' bs =>
      simp only [List.cons_append] at h
      obtain ⟨hc, hrest⟩ := List.cons.injEq .. ▸ h
      have ha' : '-' ∉ as := fun hx => ha (List.mem_cons_of_mem c hx)
      have hb' : '-' ∉ bs := fun hx => hb (List.mem_cons_of_mem c' hx)
      obtain ⟨h₁, h₂⟩ := ih bs t u ha' hb' hrest
      exact ⟨by rw [hc, h₁], h₂⟩

/-- The character data of a setting id over a string relay id. -/
theorem make_setting_id_data (r : String) (v : PyVal) :
    (make_setting_id (PyVal.str r) v).data
      = 'S' :: 'E' :: 'T' :: '-' :: (r.data ++ '-' :: (pyStr v).data) := by
  show (("SET-" ++ r ++ "-" ++ pyStr v : String)).data = _
  rw [String.data_append, String.data_append, String.data_append]
  have h₁ : ("SET-" : String).data = ['S', 'E', 'T', '-'] := rfl
  have h₂ : ("-" : String).data = ['-'] := rfl
  rw [h₁, h₂]
  simp

/-- Setting ids built from hyphen-free relay ids determine the relay id
and the rendered function id. -/
theorem make_setting_id_inj (r₁ r₂ : String) (v₁ v₂ : PyVal)
    (h₁ : '-' ∉ r₁.data) (h₂ : '-' ∉ r₂.data)
    (h : make_setting_id (PyVal.str r₁) v₁ = make_setting_id (PyVal.str r₂) v₂) :
    r₁ = r₂ ∧ pyStr v₁ = pyStr v₂ := by
  have hd := congrArg String.data h
  rw [make_setting_id_data, make_setting_id_data] at hd
  have hd' : r₁.data ++ '-' :: (pyStr v₁).data = r₂.data ++ '-' :: (pyStr v₂).data := by
    injection hd with _ hd
    injection hd with _ hd
    injection hd with _ hd
    injection hd with _ hd
  obtain ⟨ha, hb⟩ :=
    sep_append_inj r₁.data r₂.data (pyStr v₁).data (pyStr v₂).data h₁ h₂ hd'
  exact ⟨String.ext ha, String.ext hb⟩

/-- Shape of a well-formed natural identifier. -/
theorem goodIdVal_spec (v : PyVal) (h : goodIdVal v = true) :
    ∃ s : String, v = PyVal.str s ∧ s ≠ "" ∧ '-' ∉ s.data := by
  cases v with
  | str s =>
    simp only [goodIdVal, Bool.and_eq_true, Bool.not_eq_true'] at h
    refine ⟨s, rfl, ?_, ?_⟩
    · simpa using h.1
    · simpa using h.2
  | num q => simp [goodIdVal] at h
  | nan => simp [goodIdVal] at h
  | inf b => simp [goodIdVal] at h
  | none => simp [goodIdVal] at h
  | dict d => simp [goodIdVal] at h
  | list l => simp [goodIdVal] at h

/-- The setting-id column of one function's extraction is empty or the
one id `make_setting_id rid (funcIdVal fd)`. -/
theorem settings_rows_sid (rid : PyVal) (fd : List (String × PyVal)) :
    ∀ rows, settings_rows_for_function rid fd = Except.ok rows →
      rows.map (fun r => r.setting_id) = [] ∨
      rows.map (fun r => r.setting_id) = [make_setting_id rid (funcIdVal fd)] := by
  intro rows h
  cases hc : _collect_raw_settings_for_function fd with
  | error e => rw [settings_rows_for_function, hc] at h; cases h
  | ok raw =>
    rw [settings_rows_unfold rid fd raw hc] at h
    cases raw with
    | nil =>
      simp only [List.isEmpty_nil, if_true] at h
      cases h
      exact Or.inl rfl
    | cons a as =>
      simp only [List.isEmpty_cons, Bool.false_eq_true, if_false] at h
      cases h
      exact Or.inr rfl

/-- The setting-id column of the per-relay function loop is a sublist
of the per-function candidate ids. -/
theorem settings_funcs_sid_sublist (rid : PyVal) :
    ∀ (funcs : List PyVal) (rows : List SettingRow),
      settings_funcs rid funcs = Except.ok rows →
      (rows.map (fun r => r.setting_id)).Sublist (funcSids rid funcs) := by
  intro funcs
  induction funcs with
  | nil =>
    intro rows h
    cases h
    simp
  | cons f rest ih =>
    intro rows h
    cases f with
    | dict fd =>
      rw [settings_funcs] at h
      cases h₁ : settings_rows_for_function rid fd with
      | error e => rw [h₁] at h; cases h
      | ok rows₁ =>
        rw [h₁] at h
        cases h₂ : settings_funcs rid rest with
        | error e => rw [h₂] at h; cases h
        | ok rows₂ =>
          rw [h₂] at h
          cases h
          rw [List.map_append]
          have hsub := ih rows₂ h₂
          rcases settings_rows_sid rid fd rows₁ h₁ with hs | hs
          · rw [hs, List.nil_append]
            show (rows₂.map (fun r => r.setting_id)).Sublist
              (funcSids rid (PyVal.dict fd :: rest))
            rw [funcSids, List.filterMap_cons]
            exact hsub.cons _
          · rw [hs]
            show (make_setting_id rid (funcIdVal fd) :: rows₂.map (fun r => r.setting_id)).Sublist
              (funcSids rid (PyVal.dict fd :: rest))
            rw [funcSids, List.filterMap_cons]
            exact hsub.cons₂ _
    | str s => exact ih rows h
    | num q => exact ih rows h
    | nan => exact ih rows h
    | inf b => exact ih rows h
    | none => exact ih rows h
    | list l => exact ih rows h

/-- String concatenation cancels on the left. -/
theorem strAppend_left_cancel (a b c : String) (h : a ++ b = a ++ c) : b = c := by
  have hd := congrArg String.data h
  rw [String.data_append, String.data_append] at hd
  exact String.ext (List.append_cancel_left hd)

/-- The candidate setting ids of a function list are the per-function
id strings, each wrapped into a setting id. -/
theorem funcSids_eq_map (rid : PyVal) :
    ∀ funcs : List PyVal,
      funcSids rid funcs
        = (funcs.filterMap
            (fun f =>
              match f with
              | PyVal.dict fd => some (funcIdStr fd)
              | _ => Option.none)).map
            (fun s => "SET-" ++ pyStr rid ++ "-" ++ s) := by
  intro funcs
  induction funcs with
  | nil => rfl
  | cons f rest ih =>
    cases f with
    | dict fd =>
      rw [funcSids, List.filterMap_cons] at *
      simp only [List.filterMap_cons, List.map_cons]
      exact congrArg _ ih
    | str s => simpa [funcSids, List.filterMap_cons] using ih
    | num q => simpa [funcSids, List.filterMap_cons] using ih
    | nan => simpa [funcSids, List.filterMap_cons] using ih
    | inf b => simpa [funcSids, List.filterMap_cons] using ih
    | none => simpa [funcSids, List.filterMap_cons] using ih
    | list l => simpa [funcSids, List.filterMap_cons] using ih

/-- With pairwise-distinct function-id strings the candidate setting
ids of one relay are pairwise distinct. -/
theorem funcSids_nodup (rid : PyVal) (funcs : List PyVal)
    (hnd : (funcs.filterMap
      (fun f =>
        match f with
        | PyVal.dict fd => some (funcIdStr fd)
        | _ => Option.none)).Nodup) :
    (funcSids rid funcs).Nodup := by
  rw [funcSids_eq_map]
  refine List.Nodup.map ?_ hnd
  intro s₁ s₂ h
  have h' : ("SET-" ++ pyStr rid ++ "-") ++ s₁ = ("SET-" ++ pyStr rid ++ "-") ++ s₂ := by
    simpa [String.append_assoc] using h
  exact strAppend_left_cancel _ _ _ h'

/-- Case analysis of a successful per-relay settings extraction. -/
theorem settings_relay_cases (relay : PyVal) (rows : List SettingRow)
    (h : settings_relay relay = Except.ok rows) :
    rows = [] ∨
    ∃ d pb, relay = PyVal.dict d ∧
      pyDictGet d "ProtectionFunctions" = PyVal.dict pb ∧ pb.isEmpty = false ∧
      settings_funcs (pyDictGet d "@id") (ensure_list (pyDictGet pb "Function"))
        = Except.ok rows := by
  cases relay with
  | dict d =>
    rw [settings_relay] at h
    cases hpf : pyDictGet d "ProtectionFunctions" with
    | dict pb =>
      rw [hpf] at h
      cases hq : pb.isEmpty with
      | true =>
        rw [if_neg (by simp [truthy, hq])] at h
        cases h
        exact Or.inl rfl
      | false =>
        rw [if_pos (by simp [truthy, hq])] at h
        exact Or.inr ⟨d, pb, rfl, hpf, hq, h⟩
    | str s =>
      rw [hpf] at h
      by_cases ht : truthy (PyVal.str s) = true
      · rw [if_pos ht] at h; cases h
      · rw [if_neg ht] at h; cases h; exact Or.inl rfl
    | num q =>
      rw [hpf] at h
      by_cases ht : truthy (PyVal.num q) = true
      · rw [if_pos ht] at h; cases h
      · rw [if_neg ht] at h; cases h; exact Or.inl rfl
    | nan =>
      rw [hpf, if_pos (show truthy PyVal.nan = true from rfl)] at h
      cases h
    | inf b =>
      rw [hpf, if_pos (show truthy (PyVal.inf b) = true from rfl)] at h
      cases h
    | none =>
      rw [hpf, if_neg (by simp [truthy])] at h
      cases h
      exact Or.inl rfl
    | list l =>
      rw [hpf] at h
      by_cases ht : truthy (PyVal.list l) = true
      · rw [if_pos ht] at h; cases h
      · rw [if_neg ht] at h; cases h; exact Or.inl rfl
  | str s => cases h
  | num q => cases h
  | nan => cases h
  | inf b => cases h
  | none => cases h
  | list l => cases h

/-- With a good identifier discipline, the setting ids of one relay's
rows are pairwise distinct. -/
theorem settings_relay_nodup (relay : PyVal) (rows : List SettingRow)
    (h : settings_relay relay = Except.ok rows) (hg : goodRelay relay = true) :
    (rows.map (fun r => r.setting_id)).Nodup := by
  rcases settings_relay_cases relay rows h with hrow | ⟨d, pb, rfl, hpf, hq, hsf⟩
  · simp [hrow]
  · have hsub := settings_funcs_sid_sublist (pyDictGet d "@id") _ rows hsf
    refine hsub.nodup (funcSids_nodup _ _ ?_)
    have hfn : relayFuncNodes (PyVal.dict d) = ensure_list (pyDictGet pb "Function") := by
      rw [relayFuncNodes, hpf]
      show (if pb.isEmpty = true then [] else ensure_list (pyDictGet pb "Function"))
          = ensure_list (pyDictGet pb "Function")
      rw [hq, if_neg Bool.false_ne_true]
    have h3 : (relayFuncIds (PyVal.dict d)).Nodup := by
      simp only [goodRelay, Bool.and_eq_true, decide_eq_true_eq] at hg
      exact hg.2
    rw [relayFuncIds, hfn] at h3
    exact h3

/-- Every setting id of one relay's rows is a setting id of the relay's
id and some function dictionary. -/
theorem settings_relay_sid_shape (relay : PyVal) (rows : List SettingRow)
    (h : settings_relay relay = Except.ok rows) :
    ∀ s ∈ rows.map (fun r => r.setting_id),
      ∃ fd, s = make_setting_id (relayRid relay) (funcIdVal fd) := by
  rcases settings_relay_cases relay rows h with hrow | ⟨d, pb, rfl, hpf, hq, hsf⟩
  · simp [hrow]
  · intro s hs
    have hsub := settings_funcs_sid_sublist (pyDictGet d "@id") _ rows hsf
    have hmem := hsub.subset hs
    rw [funcSids] at hmem
    obtain ⟨f, hf, hsome⟩ := List.mem_filterMap.mp hmem
    cases f with
    | dict fd =>
      refine ⟨fd, ?_⟩
      have := Option.some.injEq .. ▸ hsome
      exact this.symm
    | str s₂ => cases hsome
    | num q => cases hsome
    | nan => cases hsome
    | inf b => cases hsome
    | none => cases hsome
    | list l => cases hsome

/-- Every setting id of the full table comes from some relay of the
list, keyed by that relay's id. -/
theorem normalize_settings_sid_shape :
    ∀ (relays : List PyVal) (rows : List SettingRow),
      normalize_function_settings relays = Except.ok rows →
      ∀ s ∈ rows.map (fun r => r.setting_id),
        ∃ relay ∈ relays, ∃ fd, s = make_setting_id (relayRid relay) (funcIdVal fd) := by
  intro relays
  induction relays with
  | nil =>
    intro rows h
    cases h
    simp
  | cons relay rest ih =>
    intro rows h
    rw [normalize_function_settings] at h
    cases h₁ : settings_relay relay with
    | error e => rw [h₁] at h; cases h
    | ok rows₁ =>
      rw [h₁] at h
      cases h₂ : normalize_function_settings rest with
      | error e => rw [h₂] at h; cases h
      | ok rows₂ =>
        rw [h₂] at h
        cases h
        intro s hs
        rw [List.map_append] at hs
        rcases List.mem_append.mp hs with hm | hm
        · obtain ⟨fd, hfd⟩ := settings_relay_sid_shape relay rows₁ h₁ s hm
          exact ⟨relay, List.mem_cons_self _ _, fd, hfd⟩
        · obtain ⟨relay', hrel', fd, hfd⟩ := ih rows₂ h₂ s hm
          exact ⟨relay', List.mem_cons_of_mem _ hrel', fd, hfd⟩

/-- The first component of a good relay: its id is a good natural
identifier. -/
theorem goodRelay_rid (relay : PyVal) (hg : goodRelay relay = true) :
    goodIdVal (relayRid relay) = true := by
  simp only [goodRelay, Bool.and_eq_true] at hg
  exact hg.1.1

/-- Claim C2 (amended): when every relay carries a non-empty,
hyphen-free `@id`, pairwise distinct across relays, and every function
node carries a non-empty hyphen-free `@id`, pairwise distinct within
its relay, the `setting_id` column of the FunctionSetting table is
pairwise distinct. -/
theorem C2_setting_ids_nodup :
    ∀ relays, goodTree relays = true →
      (settingIds (normalize_function_settings relays)).Nodup := by
  intro relays
  induction relays with
  | nil => intro _; exact List.nodup_nil
  | cons relay rest ih =>
    intro hg
    have hgparts : goodRelay relay = true ∧ (rest.all goodRelay) = true ∧
        ((relay :: rest).map (fun r => pyStr (relayRid r))).Nodup := by
      simp only [goodTree, List.all_cons, Bool.and_eq_true, decide_eq_true_eq] at hg
      exact ⟨hg.1.1, hg.1.2, hg.2⟩
    obtain ⟨hg₁, hgrest, hgnod⟩ := hgparts
    cases h₁ : settings_relay relay with
    | error e =>
      have hN : normalize_function_settings (relay :: rest) = Except.error e := by
        rw [normalize_function_settings, h₁]
      rw [hN]
      exact List.nodup_nil
    | ok rows₁ =>
      cases h₂ : normalize_function_settings rest with
      | error e =>
        have hN : normalize_function_settings (relay :: rest) = Except.error e := by
          rw [normalize_function_settings, h₁, h₂]
        rw [hN]
        exact List.nodup_nil
      | ok rows₂ =>
        have hN : normalize_function_settings (relay :: rest)
            = Except.ok (rows₁ ++ rows₂) := by
          rw [normalize_function_settings, h₁, h₂]
        rw [hN]
        show ((rows₁ ++ rows₂).map (fun r => r.setting_id)).Nodup
        rw [List.map_append, List.nodup_append]
        refine ⟨settings_relay_nodup relay rows₁ h₁ hg₁, ?_, ?_⟩
        · have hgt : goodTree rest = true := by
            simp only [goodTree, Bool.and_eq_true, decide_eq_true_eq]
            refine ⟨hgrest, ?_⟩
            exact (List.nodup_cons.mp hgnod).2
          have := ih hgt
          rw [h₂] at this
          exact this
        · intro s hs₁ hs₂
          obtain ⟨fd₁, hfd₁⟩ := settings_relay_sid_shape relay rows₁ h₁ s hs₁
          obtain ⟨relay', hrel', fd₂, hfd₂⟩ :=
            normalize_settings_sid_shape rest rows₂ h₂ s hs₂
          obtain ⟨R₁, hR₁, _, hR₁nd⟩ := goodIdVal_spec _ (goodRelay_rid relay hg₁)
          have hg₂ : goodRelay relay' = true := by
            have := List.all_eq_true.mp hgrest relay' hrel'
            exact of_decide_eq_true (by simpa using this)
          obtain ⟨R₂, hR₂, _, hR₂nd⟩ := goodIdVal_spec _ (goodRelay_rid relay' hg₂)
          rw [hR₁] at hfd₁
          rw [hR₂] at hfd₂
          have heq : make_setting_id (PyVal.str R₁) (funcIdVal fd₁)
              = make_setting_id (PyVal.str R₂) (funcIdVal fd₂) := by
            rw [← hfd₁, ← hfd₂]
          have hRR := (make_setting_id_inj R₁ R₂ _ _ hR₁nd hR₂nd heq).1
          have hhead := (List.nodup_cons.mp hgnod).1
          refine hhead ?_
          refine List.mem_map.mpr ⟨relay', hrel', ?_⟩
          show pyStr (relayRid relay') = pyStr (relayRid relay)
          rw [hR₁, hR₂, hRR]

/-- Claim C2 witness: the good tree with functions `F1` and `F2` on
relay `R1` yields the distinct keys `SET-R1-F1` and `SET-R1-F2`. -/
theorem C2_setting_ids_nodup_witness :
    goodTree exC2w = true ∧
    settingIds (normalize_function_settings exC2w) = ["SET-R1-F1", "SET-R1-F2"] ∧
    (settingIds (normalize_function_settings exC2w)).Nodup :=
  ⟨by decide, rfl, C2_setting_ids_nodup exC2w (by decide)⟩

/-- With truthy parent ids, `make_curve_id` consults no counter and its
result is a pure function of the natural id and the position. -/
theorem make_curve_id_pure (c : Counters) (rid fid x : PyVal) (i : ℕ)
    (hr : truthy rid = true) (hf : truthy fid = true) :
    make_curve_id c rid fid x i = (curveIdPure rid fid x i, c) := by
  rw [make_curve_id, curveIdPure]
  by_cases hx : truthy x = true
  · rw [if_pos hx, if_pos hx]
  · rw [if_neg hx, if_neg hx, hr, hf]
    simp

/-- Every row of a `CurvePoints` walk carries the recomputed curve
id. -/
theorem point_items_curve_id (cid base : PyVal) :
    ∀ (l : List PyVal) (idx : ℕ) (p : PointRow), p ∈ point_items cid base idx l →
      p.curve_id = cid := by
  intro l
  induction l with
  | nil => intro idx p h; simp [point_items] at h
  | cons x xs ih =>
    intro idx p h
    cases x with
    | dict pd =>
      rw [point_items] at h
      rcases List.mem_cons.mp h with h₁ | h₂
      · rw [h₁]
      · exact ih _ p h₂
    | str s => exact ih _ p h
    | num q => exact ih _ p h
    | nan => exact ih _ p h
    | inf b => exact ih _ p h
    | none => exact ih _ p h
    | list l₂ => exact ih _ p h

/-- The head curve row of a dictionary candidate carries the pure curve
id of its attributes, independent of the counter state. -/
theorem curve_row_head_id (c : Counters) (rid fid : PyVal) (idx : ℕ)
    (cd : List (String × PyVal)) (hr : truthy rid = true) (hf : truthy fid = true) :
    (curve_row c rid fid idx cd).1.curve_id
      = curveIdPure rid fid (pyDictGet (attrsOf cd) "id") idx := by
  rw [curve_row, make_curve_id_pure c rid fid _ idx hr hf]

/-- Claim C3, per-function core: whenever the points of a function are
emitted, their curve id is the curve id of the function's first
metadata row. -/
theorem points_for_function_aligned (rid : PyVal) (fd : List (String × PyVal))
    (hr : truthy rid = true) (hf : truthy (pyDictGet fd "@id") = true)
    (hsafe : pointsSafe fd = true) :
    ∀ (c₁ c₂ : Counters) (crows : List CurveRow) (c₁' : Counters)
      (prows : List PointRow) (c₂' : Counters),
      curves_for_function c₁ rid fd = Except.ok (crows, c₁') →
      points_for_function c₂ rid fd = Except.ok (prows, c₂') →
      ∀ p ∈ prows, ∃ cr ∈ crows, cr.curve_id = p.curve_id := by
  intro c₁ c₂ crows c₁' prows c₂' hc hp
  cases hcand : curve_candidates fd with
  | error e =>
    rw [curves_for_function, hcand] at hc
    cases hc
  | ok nodes =>
    rw [curves_for_function, hcand] at hc
    simp only [] at hc
    have hcrows : crows = (curve_items c₁ rid (pyDictGet fd "@id") 1 nodes).1 := by
      injection hc with h'
      rw [h']
    rw [points_for_function, hcand] at hp
    simp only [] at hp
    rw [make_curve_id_pure c₂ rid (pyDictGet fd "@id") _ 1 hr hf] at hp
    simp only [] at hp
    by_cases hcp : truthy (pyDictGet fd "CurvePoints") = true
    · rw [pointsSafe, if_pos hcp, hcand] at hsafe
      cases nodes with
      | nil => cases hsafe
      | cons first rest' =>
        cases first with
        | dict cd₀ =>
          rw [if_pos hcp] at hp
          cases hb : pyDictGet fd "CurvePoints" with
          | dict cpd =>
            rw [hb] at hp
            simp only [] at hp
            injection hp with hp'
            have hprows : prows = point_items
                (curveIdPure rid (pyDictGet fd "@id") (pyDictGet (attrsOf cd₀) "id") 1)
                (pyDictGet cpd "@base") 1 (ensure_list (pyDictGet cpd "Point")) := by
              have := congrArg Prod.fst hp'
              exact this.symm
            intro p hpmem
            rw [hprows] at hpmem
            have hpid := point_items_curve_id _ _ _ 1 p hpmem
            refine ⟨(curve_row c₁ rid (pyDictGet fd "@id") 1 cd₀).1, ?_, ?_⟩
            · rw [hcrows]
              have hhead : (curve_items c₁ rid (pyDictGet fd "@id") 1
                  (PyVal.dict cd₀ :: rest')).1
                  = (curve_row c₁ rid (pyDictGet fd "@id") 1 cd₀).1 ::
                    (curve_items (curve_row c₁ rid (pyDictGet fd "@id") 1 cd₀).2
                      rid (pyDictGet fd "@id") 2 rest').1 := rfl
              rw [hhead]
              exact List.mem_cons_self _ _
            · rw [curve_row_head_id c₁ rid _ 1 cd₀ hr hf, hpid]
          | str s => rw [hb] at hp; cases hp
          | num q => rw [hb] at hp; cases hp
          | nan => rw [hb] at hp; cases hp
          | inf b => rw [hb] at hp; cases hp
          | none => rw [hb] at hp; cases hp
          | list l => rw [hb] at hp; cases hp
        | str s => cases hsafe
        | num q => cases hsafe
        | nan => cases hsafe
        | inf b => cases hsafe
        | none => cases hsafe
        | list l => cases hsafe
    · rw [if_neg hcp] at hp
      injection hp with hp'
      have hprows : prows = [] := by
        have := congrArg Prod.fst hp'
        exact this.symm
      intro p hpmem
      rw [hprows] at hpmem
      simp at hpmem

/-- Claim C3, function-list level: over a list of aligned function
nodes, every point row's curve id is matched by a curve row, whatever
the counter states. -/
theorem points_funcs_aligned (rid : PyVal) (hr : truthy rid = true) :
    ∀ (funcs : List PyVal),
      (funcs.all (fun f =>
        match f with
        | PyVal.dict fd => truthy (pyDictGet fd "@id") && pointsSafe fd
        | _ => true)) = true →
      ∀ (c₁ c₂ : Counters) (crows : List CurveRow) (c₁' : Counters)
        (prows : List PointRow) (c₂' : Counters),
        curves_funcs c₁ rid funcs = Except.ok (crows, c₁') →
        points_funcs c₂ rid funcs = Except.ok (prows, c₂') →
        ∀ p ∈ prows, ∃ cr ∈ crows, cr.curve_id = p.curve_id := by
  intro funcs
  induction funcs with
  | nil =>
    intro _ c₁ c₂ crows c₁' prows c₂' hc hp
    injection hp with hp'
    have hpr : prows = [] := (congrArg Prod.fst hp').symm
    intro p hpmem
    rw [hpr] at hpmem
    simp at hpmem
  | cons f rest ih =>
    intro hall c₁ c₂ crows c₁' prows c₂' hc hp
    rw [List.all_cons, Bool.and_eq_true] at hall
    obtain ⟨hfd, hrest⟩ := hall
    cases f with
    | dict fd =>
      have hfd' : (truthy (pyDictGet fd "@id") && pointsSafe fd) = true := hfd
      rw [Bool.and_eq_true] at hfd'
      rw [curves_funcs] at hc
      cases h₁ : curves_for_function c₁ rid fd with
      | error e => rw [h₁] at hc; cases hc
      | ok pr₁ =>
        obtain ⟨crows₁, c₁''⟩ := pr₁
        rw [h₁] at hc
        simp only [] at hc
        cases h₂ : curves_funcs c₁'' rid rest with
        | error e => rw [h₂] at hc; cases hc
        | ok pr₂ =>
          obtain ⟨crows₂, c₁'''⟩ := pr₂
          rw [h₂] at hc
          simp only [] at hc
          injection hc with hc'
          have hcrows : crows = crows₁ ++ crows₂ := (congrArg Prod.fst hc').symm
          rw [points_funcs] at hp
          cases h₃ : points_for_function c₂ rid fd with
          | error e => rw [h₃] at hp; cases hp
          | ok qr₁ =>
            obtain ⟨prows₁, c₂''⟩ := qr₁
            rw [h₃] at hp
            simp only [] at hp
            cases h₄ : points_funcs c₂'' rid rest with
            | error e => rw [h₄] at hp; cases hp
            | ok qr₂ =>
              obtain ⟨prows₂, c₂'''⟩ := qr₂
              rw [h₄] at hp
              simp only [] at hp
              injection hp with hp'
              have hprows : prows = prows₁ ++ prows₂ := (congrArg Prod.fst hp').symm
              intro p hpmem
              rw [hprows] at hpmem
              rw [hcrows]
              rcases List.mem_append.mp hpmem with hm | hm
              · obtain ⟨cr, hcr, hcrid⟩ :=
                  points_for_function_aligned rid fd hr hfd'.1 hfd'.2
                    c₁ c₂ crows₁ c₁'' prows₁ c₂'' h₁ h₃ p hm
                exact ⟨cr, List.mem_append_left _ hcr, hcrid⟩
              · obtain ⟨cr, hcr, hcrid⟩ :=
                  ih hrest c₁'' c₂'' crows₂ c₁''' prows₂ c₂''' h₂ h₄ p hm
                exact ⟨cr, List.mem_append_right _ hcr, hcrid⟩
    | str s => exact ih hrest c₁ c₂ crows c₁' prows c₂' hc hp
    | num q => exact ih hrest c₁ c₂ crows c₁' prows c₂' hc hp
    | nan => exact ih hrest c₁ c₂ crows c₁' prows c₂' hc hp
    | inf b => exact ih hrest c₁ c₂ crows c₁' prows c₂' hc hp
    | none => exact ih hrest c₁ c₂ crows c₁' prows c₂' hc hp
    | list l => exact ih hrest c₁ c₂ crows c₁' prows c₂' hc hp

/-- Case analysis of a successful per-relay point extraction. -/
theorem points_relay_cases (c : Counters) (relay : PyVal)
    (res : List PointRow × Counters) (h : points_relay c relay = Except.ok res) :
    res = ([], c) ∨
    ∃ d pb, relay = PyVal.dict d ∧
      pyDictGet d "ProtectionFunctions" = PyVal.dict pb ∧ pb.isEmpty = false ∧
      points_funcs c (pyDictGet d "@id") (ensure_list (pyDictGet pb "Function"))
        = Except.ok res := by
  cases relay with
  | dict d =>
    rw [points_relay] at h
    cases hpf : pyDictGet d "ProtectionFunctions" with
    | dict pb =>
      rw [hpf] at h
      cases hq : pb.isEmpty with
      | true =>
        rw [if_neg (by simp [truthy, hq])] at h
        cases h
        exact Or.inl rfl
      | false =>
        rw [if_pos (by simp [truthy, hq])] at h
        exact Or.inr ⟨d, pb, rfl, hpf, hq, h⟩
    | str s =>
      rw [hpf] at h
      by_cases ht : truthy (PyVal.str s) = true
      · rw [if_pos ht] at h; cases h
      · rw [if_neg ht] at h; cases h; exact Or.inl rfl
    | num q =>
      rw [hpf] at h
      by_cases ht : truthy (PyVal.num q) = true
      · rw [if_pos ht] at h; cases h
      · rw [if_neg ht] at h; cases h; exact Or.inl rfl
    | nan =>
      rw [hpf, if_pos (show truthy PyVal.nan = true from rfl)] at h
      cases h
    | inf b =>
      rw [hpf, if_pos (show truthy (PyVal.inf b) = true from rfl)] at h
      cases h
    | none =>
      rw [hpf, if_neg (by simp [truthy])] at h
      cases h
      exact Or.inl rfl
    | list l =>
      rw [hpf] at h
      by_cases ht : truthy (PyVal.list l) = true
      · rw [if_pos ht] at h; cases h
      · rw [if_neg ht] at h; cases h; exact Or.inl rfl
  | str s => cases h
  | num q => cases h
  | nan => cases h
  | inf b => cases h
  | none => cases h
  | list l => cases h

/-- Claim C3, relay level. -/
theorem points_relay_aligned (relay : PyVal) (hal : curvePointsAligned relay = true) :
    ∀ (c₁ c₂ : Counters) (res₁ : List CurveRow × Counters)
      (res₂ : List PointRow × Counters),
      curves_relay c₁ relay = Except.ok res₁ →
      points_relay c₂ relay = Except.ok res₂ →
      ∀ p ∈ res₂.1, ∃ cr ∈ res₁.1, cr.curve_id = p.curve_id := by
  intro c₁ c₂ res₁ res₂ hc hp
  rcases points_relay_cases c₂ relay res₂ hp with h0 | ⟨d, pb, rfl, hpf, hq, hpfuncs⟩
  · rw [h0]
    intro p hpmem
    simp at hpmem
  · rw [curves_relay, hpf, if_pos (by simp [truthy, hq])] at hc
    simp only [] at hc
    have hfn : relayFuncNodes (PyVal.dict d) = ensure_list (pyDictGet pb "Function") := by
      rw [relayFuncNodes, hpf]
      show (if pb.isEmpty = true then [] else ensure_list (pyDictGet pb "Function"))
          = ensure_list (pyDictGet pb "Function")
      rw [hq, if_neg Bool.false_ne_true]
    rw [curvePointsAligned, Bool.and_eq_true, hfn] at hal
    obtain ⟨crows, c₁'⟩ := res₁
    obtain ⟨prows, c₂'⟩ := res₂
    exact points_funcs_aligned (pyDictGet d "@id") hal.1 _ hal.2
      c₁ c₂ crows c₁' prows c₂' hc hpfuncs

/-- Claim C3 (amended): when every relay and every function node carry
truthy ids and every function with a truthy `CurvePoints` block has a
dictionary as its first candidate curve, every row of the CurvePoint
table references the curve id of some row of the Curve table, whatever
counter states the two extractors start from. -/
theorem C3_points_reference_curves :
    ∀ (relays : List PyVal) (c₁ c₂ : Counters) (crows : List CurveRow)
      (prows : List PointRow) (c₁' c₂' : Counters),
      relays.all curvePointsAligned = true →
      normalize_function_curves c₁ relays = Except.ok (crows, c₁') →
      normalize_curve_points c₂ relays = Except.ok (prows, c₂') →
      ∀ p ∈ prows, ∃ cr ∈ crows, cr.curve_id = p.curve_id := by
  intro relays
  induction relays with
  | nil =>
    intro c₁ c₂ crows prows c₁' c₂' _ hc hp
    injection hp with hp'
    have hpr : prows = [] := (congrArg Prod.fst hp').symm
    intro p hpmem
    rw [hpr] at hpmem
    simp at hpmem
  | cons relay rest ih =>
    intro c₁ c₂ crows prows c₁' c₂' hall hc hp
    rw [List.all_cons, Bool.and_eq_true] at hall
    obtain ⟨hal, hrest⟩ := hall
    rw [normalize_function_curves] at hc
    cases h₁ : curves_relay c₁ relay with
    | error e => rw [h₁] at hc; cases hc
    | ok pr₁ =>
      obtain ⟨crows₁, c₁''⟩ := pr₁
      rw [h₁] at hc
      simp only [] at hc
      cases h₂ : normalize_function_curves c₁'' rest with
      | error e => rw [h₂] at hc; cases hc
      | ok pr₂ =>
        obtain ⟨crows₂, c₁'''⟩ := pr₂
        rw [h₂] at hc
        simp only [] at hc
        injection hc with hc'
        have hcrows : crows = crows₁ ++ crows₂ := (congrArg Prod.fst hc').symm
        rw [normalize_curve_points] at hp
        cases h₃ : points_relay c₂ relay with
        | error e => rw [h₃] at hp; cases hp
        | ok qr₁ =>
          obtain ⟨prows₁, c₂''⟩ := qr₁
          rw [h₃] at hp
          simp only [] at hp
          cases h₄ : normalize_curve_points c₂'' rest with
          | error e => rw [h₄] at hp; cases hp
          | ok qr₂ =>
            obtain ⟨prows₂, c₂'''⟩ := qr₂
            rw [h₄] at hp
            simp only [] at hp
            injection hp with hp'
            have hprows : prows = prows₁ ++ prows₂ := (congrArg Prod.fst hp').symm
            intro p hpmem
            rw [hprows] at hpmem
            rw [hcrows]
            rcases List.mem_append.mp hpmem with hm | hm
            · obtain ⟨cr, hcr, hcrid⟩ :=
                points_relay_aligned relay hal c₁ c₂ (crows₁, c₁'') (prows₁, c₂'')
                  h₁ h₃ p hm
              exact ⟨cr, List.mem_append_left _ hcr, hcrid⟩
            · obtain ⟨cr, hcr, hcrid⟩ :=
                ih c₁'' c₂'' crows₂ prows₂ c₁''' c₂''' hrest h₂ h₄ p hm
              exact ⟨cr, List.mem_append_right _ hcr, hcrid⟩

/-- Claim C3 witness: on the one-curve-one-point tree the point row
carries `curve_id = C1` and the curve table has the matching row. -/
theorem C3_points_reference_curves_witness :
    exC3w.all curvePointsAligned = true ∧
    normalize_function_curves Counters.start exC3w
      = Except.ok ([exC3wCurveRow], Counters.start) ∧
    normalize_curve_points Counters.start exC3w
      = Except.ok ([exC3wPointRow], Counters.start) ∧
    (∃ cr ∈ [exC3wCurveRow], cr.curve_id = exC3wPointRow.curve_id) :=
  have hall : exC3w.all curvePointsAligned = true := by decide
  have hc : normalize_function_curves Counters.start exC3w
      = Except.ok ([exC3wCurveRow], Counters.start) := rfl
  have hp : normalize_curve_points Counters.start exC3w
      = Except.ok ([exC3wPointRow], Counters.start) := rfl
  ⟨hall, hc, hp,
   C3_points_reference_curves exC3w Counters.start Counters.start
     [exC3wCurveRow] [exC3wPointRow] Counters.start Counters.start hall hc hp
     exC3wPointRow (List.mem_singleton.mpr rfl)⟩

/-- A well-formed relay never makes the CT extractor raise. -/
theorem cts_relay_ok (relay : PyVal) (hw : wfRelay relay = true) :
    exOk (cts_relay relay) = true := by
  cases relay with
  | dict d =>
    have hcts : dictOrFalsy (pyDictGet d "CTs") = true := by
      simp only [wfRelay, Bool.and_eq_true] at hw
      exact hw.1.1.1
    rw [cts_relay]
    by_cases ht : truthy (pyDictGet d "CTs") = true
    · rw [if_pos ht]
      cases hb : pyDictGet d "CTs" with
      | dict cb => rfl
      | str s =>
        rw [hb] at hcts ht
        have hx : (!truthy (PyVal.str s)) = true := hcts
        rw [ht] at hx
        cases hx
      | num q =>
        rw [hb] at hcts ht
        have hx : (!truthy (PyVal.num q)) = true := hcts
        rw [ht] at hx
        cases hx
      | nan =>
        rw [hb] at hcts
        have hx : (!truthy PyVal.nan) = true := hcts
        cases hx
      | inf b =>
        rw [hb] at hcts
        have hx : (!truthy (PyVal.inf b)) = true := hcts
        cases hx
      | none =>
        rw [hb] at ht
        cases ht
      | list l =>
        rw [hb] at hcts ht
        have hx : (!truthy (PyVal.list l)) = true := hcts
        rw [ht] at hx
        cases hx
    · rw [if_neg ht]
      rfl
  | str s => cases hw
  | num q => cases hw
  | nan => cases hw
  | inf b => cases hw
  | none => cases hw
  | list l => cases hw

/-- A well-formed relay never makes the VT extractor raise, whatever
the counter state. -/
theorem vts_relay_ok (c : Counters) (relay : PyVal) (hw : wfRelay relay = true) :
    exOk (vts_relay c relay) = true := by
  cases relay with
  | dict d =>
    have hvts : dictOrFalsy (pyDictGet d "VTs") = true := by
      simp only [wfRelay, Bool.and_eq_true] at hw
      exact hw.1.1.2
    rw [vts_relay]
    by_cases ht : truthy (pyDictGet d "VTs") = true
    · rw [if_pos ht]
      cases hb : pyDictGet d "VTs" with
      | dict vb =>
        simp only []
        cases hn : pyDictGet vb "VT" with
        | none => rfl
        | str s => rfl
        | num q => rfl
        | nan => rfl
        | inf b => rfl
        | dict vd => rfl
        | list l => rfl
      | str s =>
        rw [hb] at hvts ht
        have hx : (!truthy (PyVal.str s)) = true := hvts
        rw [ht] at hx
        cases hx
      | num q =>
        rw [hb] at hvts ht
        have hx : (!truthy (PyVal.num q)) = true := hvts
        rw [ht] at hx
        cases hx
      | nan =>
        rw [hb] at hvts
        have hx : (!truthy PyVal.nan) = true := hvts
        cases hx
      | inf b =>
        rw [hb] at hvts
        have hx : (!truthy (PyVal.inf b)) = true := hvts
        cases hx
      | none =>
        rw [hb] at ht
        cases ht
      | list l =>
        rw [hb] at hvts ht
        have hx : (!truthy (PyVal.list l)) = true := hvts
        rw [ht] at hx
        cases hx
    · rw [if_neg ht]
      rfl
  | str s => cases hw
  | num q => cases hw
  | nan => cases hw
  | inf b => cases hw
  | none => cases hw
  | list l => cases hw

/-- A well-formed relay never makes the Parameters extractor raise. -/
theorem params_relay_ok (relay : PyVal) (hw : wfRelay relay = true) :
    exOk (params_relay relay) = true := by
  cases relay with
  | dict d =>
    have hp : dictOrFalsy (pyDictGet d "Parameters") = true := by
      simp only [wfRelay, Bool.and_eq_true] at hw
      exact hw.1.2
    rw [params_relay]
    by_cases ht : truthy (pyDictGet d "Parameters") = true
    · rw [if_pos ht]
      cases hb : pyDictGet d "Parameters" with
      | dict pbd => rfl
      | str s =>
        rw [hb] at hp ht
        have hx : (!truthy (PyVal.str s)) = true := hp
        rw [ht] at hx
        cases hx
      | num q =>
        rw [hb] at hp ht
        have hx : (!truthy (PyVal.num q)) = true := hp
        rw [ht] at hx
        cases hx
      | nan =>
        rw [hb] at hp
        have hx : (!truthy PyVal.nan) = true := hp
        cases hx
      | inf b =>
        rw [hb] at hp
        have hx : (!truthy (PyVal.inf b)) = true := hp
        cases hx
      | none =>
        rw [hb] at ht
        cases ht
      | list l =>
        rw [hb] at hp ht
        have hx : (!truthy (PyVal.list l)) = true := hp
        rw [ht] at hx
        cases hx
    · rw [if_neg ht]
      rfl
  | str s => cases hw
  | num q => cases hw
  | nan => cases hw
  | inf b => cases hw
  | none => cases hw
  | list l => cases hw

/-- The `ProtectionFunctions` block of a well-formed relay is a
dictionary when truthy, with well-formed function nodes. -/
theorem wfRelay_pf (d : List (String × PyVal)) (hw : wfRelay (PyVal.dict d) = true) :
    (match pyDictGet d "ProtectionFunctions" with
     | PyVal.dict pb => (ensure_list (pyDictGet pb "Function")).all wfFunc
     | v => !truthy v) = true := by
  simp only [wfRelay, Bool.and_eq_true] at hw
  exact hw.2

/-- A well-formed relay never makes the Function extractor raise. -/
theorem funcs_relay_ok (relay : PyVal) (hw : wfRelay relay = true) :
    exOk (funcs_relay relay) = true := by
  cases relay with
  | dict d =>
    have hpf := wfRelay_pf d hw
    rw [funcs_relay]
    by_cases ht : truthy (pyDictGet d "ProtectionFunctions") = true
    · rw [if_pos ht]
      cases hb : pyDictGet d "ProtectionFunctions" with
      | dict pb => rfl
      | str s =>
        rw [hb] at hpf ht
        have hx : (!truthy (PyVal.str s)) = true := hpf
        rw [ht] at hx
        cases hx
      | num q =>
        rw [hb] at hpf ht
        have hx : (!truthy (PyVal.num q)) = true := hpf
        rw [ht] at hx
        cases hx
      | nan =>
        rw [hb] at hpf
        have hx : (!truthy PyVal.nan) = true := hpf
        cases hx
      | inf b =>
        rw [hb] at hpf
        have hx : (!truthy (PyVal.inf b)) = true := hpf
        cases hx
      | none =>
        rw [hb] at ht
        cases ht
      | list l =>
        rw [hb] at hpf ht
        have hx : (!truthy (PyVal.list l)) = true := hpf
        rw [ht] at hx
        cases hx
    · rw [if_neg ht]
      rfl
  | str s => cases hw
  | num q => cases hw
  | nan => cases hw
  | inf b => cases hw
  | none => cases hw
  | list l => cases hw

/-- The structural conditions a well-formed function node provides. -/
theorem wfFunc_parts (fd : List (String × PyVal)) (h : wfFunc (PyVal.dict fd) = true) :
    dictOrFalsy (pyDictGet fd "Settings") = true ∧
    dictOrFalsy (pyDictGet fd "CurvePoints") = true ∧
    (match pyDictGet fd "Selectivity" with
     | PyVal.dict sd =>
       (match pyLookup sd "CoordinationMargin" with
        | some (PyVal.dict _) => true
        | some _ => false
        | Option.none => true)
     | v => !truthy v) = true := by
  simp only [wfFunc, Bool.and_eq_true] at h
  exact ⟨h.1.1, h.1.2, h.2⟩

/-- A well-formed settings block never makes the raw-triple collection
raise. -/
theorem collect_ok (fd : List (String × PyVal))
    (hws : dictOrFalsy (pyDictGet fd "Settings") = true) :
    exOk (_collect_raw_settings_for_function fd) = true := by
  rw [_collect_raw_settings_for_function]
  by_cases ht : truthy (pyDictGet fd "Settings") = true
  · rw [if_pos ht]
    cases hb : pyDictGet fd "Settings" with
    | dict items => rfl
    | str s =>
      rw [hb] at hws ht
      have hx : (!truthy (PyVal.str s)) = true := hws
      rw [ht] at hx
      cases hx
    | num q =>
      rw [hb] at hws ht
      have hx : (!truthy (PyVal.num q)) = true := hws
      rw [ht] at hx
      cases hx
    | nan =>
      rw [hb] at hws
      have hx : (!truthy PyVal.nan) = true := hws
      cases hx
    | inf b =>
      rw [hb] at hws
      have hx : (!truthy (PyVal.inf b)) = true := hws
      cases hx
    | none =>
      rw [hb] at ht
      cases ht
    | list l =>
      rw [hb] at hws ht
      have hx : (!truthy (PyVal.list l)) = true := hws
      rw [ht] at hx
      cases hx
  · rw [if_neg ht]
    rfl

/-- A well-formed settings block never makes the per-function settings
aggregation raise. -/
theorem settings_rows_ok (rid : PyVal) (fd : List (String × PyVal))
    (hws : dictOrFalsy (pyDictGet fd "Settings") = true) :
    exOk (settings_rows_for_function rid fd) = true := by
  cases hc : _collect_raw_settings_for_function fd with
  | error e =>
    have := collect_ok fd hws
    rw [hc] at this
    cases this
  | ok raw =>
    rw [settings_rows_unfold rid fd raw hc]
    by_cases hE : raw.isEmpty = true
    · rw [if_pos hE]; rfl
    · rw [if_neg hE]; rfl

/-- Well-formed function nodes never make the settings loop raise. -/
theorem settings_funcs_ok (rid : PyVal) :
    ∀ funcs : List PyVal, funcs.all wfFunc = true →
      exOk (settings_funcs rid funcs) = true := by
  intro funcs
  induction funcs with
  | nil => intro _; rfl
  | cons f rest ih =>
    intro hall
    rw [List.all_cons, Bool.and_eq_true] at hall
    cases f with
    | dict fd =>
      rw [settings_funcs]
      cases h₁ : settings_rows_for_function rid fd with
      | error e =>
        have := settings_rows_ok rid fd (wfFunc_parts fd hall.1).1
        rw [h₁] at this
        cases this
      | ok rows₁ =>
        cases h₂ : settings_funcs rid rest with
        | error e =>
          have := ih hall.2
          rw [h₂] at this
          cases this
        | ok rows₂ =>
          rfl
    | str s => exact ih hall.2
    | num q => exact ih hall.2
    | nan => exact ih hall.2
    | inf b => exact ih hall.2
    | none => exact ih hall.2
    | list l => exact ih hall.2

/-- A well-formed settings block never makes the candidate-curve
collection raise. -/
theorem curve_candidates_ok (fd : List (String × PyVal))
    (hws : dictOrFalsy (pyDictGet fd "Settings") = true) :
    exOk (curve_candidates fd) = true := by
  rw [curve_candidates]
  by_cases ht : truthy (pyDictGet fd "Settings") = true
  · rw [if_pos ht]
    cases hb : pyDictGet fd "Settings" with
    | dict sd =>
      simp only []
      cases hl : pyLookup sd "Curve" with
      | some v => cases hl2 : pyLookup fd "Curve" <;> rfl
      | none => cases hl2 : pyLookup fd "Curve" <;> rfl
    | str s =>
      rw [hb] at hws ht
      have hx : (!truthy (PyVal.str s)) = true := hws
      rw [ht] at hx
      cases hx
    | num q =>
      rw [hb] at hws ht
      have hx : (!truthy (PyVal.num q)) = true := hws
      rw [ht] at hx
      cases hx
    | nan =>
      rw [hb] at hws
      have hx : (!truthy PyVal.nan) = true := hws
      cases hx
    | inf b =>
      rw [hb] at hws
      have hx : (!truthy (PyVal.inf b)) = true := hws
      cases hx
    | none =>
      rw [hb] at ht
      cases ht
    | list l =>
      rw [hb] at hws ht
      have hx : (!truthy (PyVal.list l)) = true := hws
      rw [ht] at hx
      cases hx
  · rw [if_neg ht]
    cases hl2 : pyLookup fd "Curve" <;> rfl

/-- A well-formed settings block never makes the per-function curve
extraction raise. -/
theorem curves_for_function_ok (c : Counters) (rid : PyVal) (fd : List (String × PyVal))
    (hws : dictOrFalsy (pyDictGet fd "Settings") = true) :
    exOk (curves_for_function c rid fd) = true := by
  cases hcand : curve_candidates fd with
  | error e =>
    have := curve_candidates_ok fd hws
    rw [hcand] at this
    cases this
  | ok nodes =>
    rw [curves_for_function, hcand]
    rfl

/-- A well-formed function node never makes the per-function point
extraction raise. -/
theorem points_for_function_ok (c : Counters) (rid : PyVal) (fd : List (String × PyVal))
    (hws : dictOrFalsy (pyDictGet fd "Settings") = true)
    (hwcp : dictOrFalsy (pyDictGet fd "CurvePoints") = true) :
    exOk (points_for_function c rid fd) = true := by
  cases hcand : curve_candidates fd with
  | error e =>
    have := curve_candidates_ok fd hws
    rw [hcand] at this
    cases this
  | ok nodes =>
    rw [points_for_function, hcand]
    simp only []
    cases hmk : make_curve_id c rid (pyDictGet fd "@id")
        (match nodes with
         | [] => PyVal.none
         | first :: _ =>
           match first with
           | PyVal.dict cd => pyDictGet (attrsOf cd) "id"
           | _ => PyVal.none) 1 with
    | mk cid c₁ =>
      by_cases hcp : truthy (pyDictGet fd "CurvePoints") = true
      · rw [if_pos hcp]
        cases hb : pyDictGet fd "CurvePoints" with
        | dict cpd => rfl
        | str s =>
          rw [hb] at hwcp hcp
          have hx : (!truthy (PyVal.str s)) = true := hwcp
          rw [hcp] at hx
          cases hx
        | num q =>
          rw [hb] at hwcp hcp
          have hx : (!truthy (PyVal.num q)) = true := hwcp
          rw [hcp] at hx
          cases hx
        | nan =>
          rw [hb] at hwcp
          have hx : (!truthy PyVal.nan) = true := hwcp
          cases hx
        | inf b =>
          rw [hb] at hwcp
          have hx : (!truthy (PyVal.inf b)) = true := hwcp
          cases hx
        | none =>
          rw [hb] at hcp
          cases hcp
        | list l =>
          rw [hb] at hwcp hcp
          have hx : (!truthy (PyVal.list l)) = true := hwcp
          rw [hcp] at hx
          cases hx
      · rw [if_neg hcp]
        rfl

/-- A well-formed function node never makes the per-function selectivity
extraction raise. -/
theorem sel_for_function_ok (rid : PyVal) (fd : List (String × PyVal))
    (hsel : (match pyDictGet fd "Selectivity" with
             | PyVal.dict sd =>
               (match pyLookup sd "CoordinationMargin" with
                | some (PyVal.dict _) => true
                | some _ => false
                | Option.none => true)
             | v => !truthy v) = true) :
    exOk (sel_for_function rid fd) = true := by
  rw [sel_for_function]
  by_cases ht : truthy (pyDictGet fd "Selectivity") = true
  · rw [if_pos ht]
    cases hb : pyDictGet fd "Selectivity" with
    | dict sd =>
      rw [hb] at hsel
      simp only [] at hsel
      simp only []
      cases hl : pyLookup sd "CoordinationMargin" with
      | some v =>
        rw [hl] at hsel
        cases v with
        | dict md => rfl
        | str s => cases hsel
        | num q => cases hsel
        | nan => cases hsel
        | inf b => cases hsel
        | none => cases hsel
        | list l => cases hsel
      | none => rfl
    | str s =>
      rw [hb] at hsel ht
      have hx : (!truthy (PyVal.str s)) = true := hsel
      rw [ht] at hx
      cases hx
    | num q =>
      rw [hb] at hsel ht
      have hx : (!truthy (PyVal.num q)) = true := hsel
      rw [ht] at hx
      cases hx
    | nan =>
      rw [hb] at hsel
      have hx : (!truthy PyVal.nan) = true := hsel
      cases hx
    | inf b =>
      rw [hb] at hsel
      have hx : (!truthy (PyVal.inf b)) = true := hsel
      cases hx
    | none =>
      rw [hb] at ht
      cases ht
    | list l =>
      rw [hb] at hsel ht
      have hx : (!truthy (PyVal.list l)) = true := hsel
      rw [ht] at hx
      cases hx
  · rw [if_neg ht]
    rfl

/-- Well-formed function nodes never make the curve loop raise. -/
theorem curves_funcs_ok (rid : PyVal) :
    ∀ (funcs : List PyVal) (c : Counters), funcs.all wfFunc = true →
      exOk (curves_funcs c rid funcs) = true := by
  intro funcs
  induction funcs with
  | nil => intro c _; rfl
  | cons f rest ih =>
    intro c hall
    rw [List.all_cons, Bool.and_eq_true] at hall
    cases f with
    | dict fd =>
      rw [curves_funcs]
      cases h₁ : curves_for_function c rid fd with
      | error e =>
        have := curves_for_function_ok c rid fd (wfFunc_parts fd hall.1).1
        rw [h₁] at this
        cases this
      | ok pr =>
        obtain ⟨rows₁, c₁⟩ := pr
        simp only []
        cases h₂ : curves_funcs c₁ rid rest with
        | error e =>
          have := ih c₁ hall.2
          rw [h₂] at this
          cases this
        | ok pr₂ =>
          obtain ⟨rows₂, c₂⟩ := pr₂
          rfl
    | str s => exact ih c hall.2
    | num q => exact ih c hall.2
    | nan => exact ih c hall.2
    | inf b => exact ih c hall.2
    | none => exact ih c hall.2
    | list l => exact ih c hall.2

/-- Well-formed function nodes never make the point loop raise. -/
theorem points_funcs_ok (rid : PyVal) :
    ∀ (funcs : List PyVal) (c : Counters), funcs.all wfFunc = true →
      exOk (points_funcs c rid funcs) = true := by
  intro funcs
  induction funcs with
  | nil => intro c _; rfl
  | cons f rest ih =>
    intro c hall
    rw [List.all_cons, Bool.and_eq_true] at hall
    cases f with
    | dict fd =>
      rw [points_funcs]
      cases h₁ : points_for_function c rid fd with
      | error e =>
        have := points_for_function_ok c rid fd (wfFunc_parts fd hall.1).1
            (wfFunc_parts fd hall.1).2.1
        rw [h₁] at this
        cases this
      | ok pr =>
        obtain ⟨rows₁, c₁⟩ := pr
        simp only []
        cases h₂ : points_funcs c₁ rid rest with
        | error e =>
          have := ih c₁ hall.2
          rw [h₂] at this
          cases this
        | ok pr₂ =>
          obtain ⟨rows₂, c₂⟩ := pr₂
          rfl
    | str s => exact ih c hall.2
    | num q => exact ih c hall.2
    | nan => exact ih c hall.2
    | inf b => exact ih c hall.2
    | none => exact ih c hall.2
    | list l => exact ih c hall.2

/-- Well-formed function nodes never make the selectivity loop raise. -/
theorem sel_funcs_ok (rid : PyVal) :
    ∀ funcs : List PyVal, funcs.all wfFunc = true →
      exOk (sel_funcs rid funcs) = true := by
  intro funcs
  induction funcs with
  | nil => intro _; rfl
  | cons f rest ih =>
    intro hall
    rw [List.all_cons, Bool.and_eq_true] at hall
    cases f with
    | dict fd =>
      rw [sel_funcs]
      cases h₁ : sel_for_function rid fd with
      | error e =>
        have := sel_for_function_ok rid fd (wfFunc_parts fd hall.1).2.2
        rw [h₁] at this
        cases this
      | ok rows₁ =>
        cases h₂ : sel_funcs rid rest with
        | error e =>
          have := ih hall.2
          rw [h₂] at this
          cases this
        | ok rows₂ => rfl
    | str s => exact ih hall.2
    | num q => exact ih hall.2
    | nan => exact ih hall.2
    | inf b => exact ih hall.2
    | none => exact ih hall.2
    | list l => exact ih hall.2

/-- A well-formed relay never makes its settings extraction raise. -/
theorem settings_relay_ok (relay : PyVal) (hw : wfRelay relay = true) :
    exOk (settings_relay relay) = true := by
  cases relay with
  | dict d =>
    have hpf := wfRelay_pf d hw
    rw [settings_relay]
    by_cases ht : truthy (pyDictGet d "ProtectionFunctions") = true
    · rw [if_pos ht]
      cases hb : pyDictGet d "ProtectionFunctions" with
      | dict pb =>
        rw [hb] at hpf
        have hall : (ensure_list (pyDictGet pb "Function")).all wfFunc = true := hpf
        simp only []
        exact settings_funcs_ok (pyDictGet d "@id") (ensure_list (pyDictGet pb "Function")) hall
      | str s =>
        rw [hb] at hpf ht
        have hx : (!truthy (PyVal.str s)) = true := hpf
        rw [ht] at hx
        cases hx
      | num q =>
        rw [hb] at hpf ht
        have hx : (!truthy (PyVal.num q)) = true := hpf
        rw [ht] at hx
        cases hx
      | nan =>
        rw [hb] at hpf
        have hx : (!truthy PyVal.nan) = true := hpf
        cases hx
      | inf b =>
        rw [hb] at hpf
        have hx : (!truthy (PyVal.inf b)) = true := hpf
        cases hx
      | none =>
        rw [hb] at ht
        cases ht
      | list l =>
        rw [hb] at hpf ht
        have hx : (!truthy (PyVal.list l)) = true := hpf
        rw [ht] at hx
        cases hx
    · rw [if_neg ht]
      rfl
  | str s => cases hw
  | num q => cases hw
  | nan => cases hw
  | inf b => cases hw
  | none => cases hw
  | list l => cases hw

/-- A well-formed relay never makes its curve extraction raise. -/
theorem curves_relay_ok (c : Counters) (relay : PyVal) (hw : wfRelay relay = true) :
    exOk (curves_relay c relay) = true := by
  cases relay with
  | dict d =>
    have hpf := wfRelay_pf d hw
    rw [curves_relay]
    by_cases ht : truthy (pyDictGet d "ProtectionFunctions") = true
    · rw [if_pos ht]
      cases hb : pyDictGet d "ProtectionFunctions" with
      | dict pb =>
        rw [hb] at hpf
        have hall : (ensure_list (pyDictGet pb "Function")).all wfFunc = true := hpf
        simp only []
        exact curves_funcs_ok (pyDictGet d "@id") (ensure_list (pyDictGet pb "Function")) c hall
      | str s =>
        rw [hb] at hpf ht
        have hx : (!truthy (PyVal.str s)) = true := hpf
        rw [ht] at hx
        cases hx
      | num q =>
        rw [hb] at hpf ht
        have hx : (!truthy (PyVal.num q)) = true := hpf
        rw [ht] at hx
        cases hx
      | nan =>
        rw [hb] at hpf
        have hx : (!truthy PyVal.nan) = true := hpf
        cases hx
      | inf b =>
        rw [hb] at hpf
        have hx : (!truthy (PyVal.inf b)) = true := hpf
        cases hx
      | none =>
        rw [hb] at ht
        cases ht
      | list l =>
        rw [hb] at hpf ht
        have hx : (!truthy (PyVal.list l)) = true := hpf
        rw [ht] at hx
        cases hx
    · rw [if_neg ht]
      rfl
  | str s => cases hw
  | num q => cases hw
  | nan => cases hw
  | inf b => cases hw
  | none => cases hw
  | list l => cases hw

/-- A well-formed relay never makes its point extraction raise. -/
theorem points_relay_ok (c : Counters) (relay : PyVal) (hw : wfRelay relay = true) :
    exOk (points_relay c relay) = true := by
  cases relay with
  | dict d =>
    have hpf := wfRelay_pf d hw
    rw [points_relay]
    by_cases ht : truthy (pyDictGet d "ProtectionFunctions") = true
    · rw [if_pos ht]
      cases hb : pyDictGet d "ProtectionFunctions" with
      | dict pb =>
        rw [hb] at hpf
        have hall : (ensure_list (pyDictGet pb "Function")).all wfFunc = true := hpf
        simp only []
        exact points_funcs_ok (pyDictGet d "@id") (ensure_list (pyDictGet pb "Function")) c hall
      | str s =>
        rw [hb] at hpf ht
        have hx : (!truthy (PyVal.str s)) = true := hpf
        rw [ht] at hx
        cases hx
      | num q =>
        rw [hb] at hpf ht
        have hx : (!truthy (PyVal.num q)) = true := hpf
        rw [ht] at hx
        cases hx
      | nan =>
        rw [hb] at hpf
        have hx : (!truthy PyVal.nan) = true := hpf
        cases hx
      | inf b =>
        rw [hb] at hpf
        have hx : (!truthy (PyVal.inf b)) = true := hpf
        cases hx
      | none =>
        rw [hb] at ht
        cases ht
      | list l =>
        rw [hb] at hpf ht
        have hx : (!truthy (PyVal.list l)) = true := hpf
        rw [ht] at hx
        cases hx
    · rw [if_neg ht]
      rfl
  | str s => cases hw
  | num q => cases hw
  | nan => cases hw
  | inf b => cases hw
  | none => cases hw
  | list l => cases hw

/-- A well-formed relay never makes its selectivity extraction raise. -/
theorem sel_relay_ok (relay : PyVal) (hw : wfRelay relay = true) :
    exOk (sel_relay relay) = true := by
  cases relay with
  | dict d =>
    have hpf := wfRelay_pf d hw
    rw [sel_relay]
    by_cases ht : truthy (pyDictGet d "ProtectionFunctions") = true
    · rw [if_pos ht]
      cases hb : pyDictGet d "ProtectionFunctions" with
      | dict pb =>
        rw [hb] at hpf
        have hall : (ensure_list (pyDictGet pb "Function")).all wfFunc = true := hpf
        simp only []
        exact sel_funcs_ok (pyDictGet d "@id") (ensure_list (pyDictGet pb "Function")) hall
      | str s =>
        rw [hb] at hpf ht
        have hx : (!truthy (PyVal.str s)) = true := hpf
        rw [ht] at hx
        cases hx
      | num q =>
        rw [hb] at hpf ht
        have hx : (!truthy (PyVal.num q)) = true := hpf
        rw [ht] at hx
        cases hx
      | nan =>
        rw [hb] at hpf
        have hx : (!truthy PyVal.nan) = true := hpf
        cases hx
      | inf b =>
        rw [hb] at hpf
        have hx : (!truthy (PyVal.inf b)) = true := hpf
        cases hx
      | none =>
        rw [hb] at ht
        cases ht
      | list l =>
        rw [hb] at hpf ht
        have hx : (!truthy (PyVal.list l)) = true := hpf
        rw [ht] at hx
        cases hx
    · rw [if_neg ht]
      rfl
  | str s => cases hw
  | num q => cases hw
  | nan => cases hw
  | inf b => cases hw
  | none => cases hw
  | list l => cases hw

/-- On a well-formed tree `normalize_cts` never raises. -/
theorem normalize_cts_ok :
    ∀ relays : List PyVal, wfTree relays = true →
      exOk (normalize_cts relays) = true := by
  intro relays
  induction relays with
  | nil => intro _; rfl
  | cons relay rest ih =>
    intro hall
    rw [wfTree, List.all_cons, Bool.and_eq_true] at hall
    rw [normalize_cts]
    cases h₁ : cts_relay relay with
    | error e =>
      have := cts_relay_ok relay hall.1
      rw [h₁] at this
      cases this
    | ok rows₁ =>
      cases h₂ : normalize_cts rest with
      | error e =>
        have := ih hall.2
        rw [h₂] at this
        cases this
      | ok rows₂ => rfl

/-- On a well-formed tree `normalize_vts` never raises, whatever the
counter state. -/
theorem normalize_vts_ok :
    ∀ (relays : List PyVal) (c : Counters), wfTree relays = true →
      exOk (normalize_vts c relays) = true := by
  intro relays
  induction relays with
  | nil => intro c _; rfl
  | cons relay rest ih =>
    intro c hall
    rw [wfTree, List.all_cons, Bool.and_eq_true] at hall
    rw [normalize_vts]
    cases h₁ : vts_relay c relay with
    | error e =>
      have := vts_relay_ok c relay hall.1
      rw [h₁] at this
      cases this
    | ok pr =>
      obtain ⟨rows₁, c₁⟩ := pr
      simp only []
      cases h₂ : normalize_vts c₁ rest with
      | error e =>
        have := ih c₁ hall.2
        rw [h₂] at this
        cases this
      | ok pr₂ =>
        obtain ⟨rows₂, c₂⟩ := pr₂
        rfl

/-- On a well-formed tree `normalize_functions` never raises. -/
theorem normalize_functions_ok :
    ∀ relays : List PyVal, wfTree relays = true →
      exOk (normalize_functions relays) = true := by
  intro relays
  induction relays with
  | nil => intro _; rfl
  | cons relay rest ih =>
    intro hall
    rw [wfTree, List.all_cons, Bool.and_eq_true] at hall
    rw [normalize_functions]
    cases h₁ : funcs_relay relay with
    | error e =>
      have := funcs_relay_ok relay hall.1
      rw [h₁] at this
      cases this
    | ok rows₁ =>
      cases h₂ : normalize_functions rest with
      | error e =>
        have := ih hall.2
        rw [h₂] at this
        cases this
      | ok rows₂ => rfl

/-- On a well-formed tree `normalize_function_settings` never raises. -/
theorem normalize_function_settings_ok :
    ∀ relays : List PyVal, wfTree relays = true →
      exOk (normalize_function_settings relays) = true := by
  intro relays
  induction relays with
  | nil => intro _; rfl
  | cons relay rest ih =>
    intro hall
    rw [wfTree, List.all_cons, Bool.and_eq_true] at hall
    rw [normalize_function_settings]
    cases h₁ : settings_relay relay with
    | error e =>
      have := settings_relay_ok relay hall.1
      rw [h₁] at this
      cases this
    | ok rows₁ =>
      cases h₂ : normalize_function_settings rest with
      | error e =>
        have := ih hall.2
        rw [h₂] at this
        cases this
      | ok rows₂ => rfl

/-- On a well-formed tree `normalize_function_curves` never raises,
whatever the counter state. -/
theorem normalize_function_curves_ok :
    ∀ (relays : List PyVal) (c : Counters), wfTree relays = true →
      exOk (normalize_function_curves c relays) = true := by
  intro relays
  induction relays with
  | nil => intro c _; rfl
  | cons relay rest ih =>
    intro c hall
    rw [wfTree, List.all_cons, Bool.and_eq_true] at hall
    rw [normalize_function_curves]
    cases h₁ : curves_relay c relay with
    | error e =>
      have := curves_relay_ok c relay hall.1
      rw [h₁] at this
      cases this
    | ok pr =>
      obtain ⟨rows₁, c₁⟩ := pr
      simp only []
      cases h₂ : normalize_function_curves c₁ rest with
      | error e =>
        have := ih c₁ hall.2
        rw [h₂] at this
        cases this
      | ok pr₂ =>
        obtain ⟨rows₂, c₂⟩ := pr₂
        rfl

/-- On a well-formed tree `normalize_curve_points` never raises,
whatever the counter state. -/
theorem normalize_curve_points_ok :
    ∀ (relays : List PyVal) (c : Counters), wfTree relays = true →
      exOk (normalize_curve_points c relays) = true := by
  intro relays
  induction relays with
  | nil => intro c _; rfl
  | cons relay rest ih =>
    intro c hall
    rw [wfTree, List.all_cons, Bool.and_eq_true] at hall
    rw [normalize_curve_points]
    cases h₁ : points_relay c relay with
    | error e =>
      have := points_relay_ok c relay hall.1
      rw [h₁] at this
      cases this
    | ok pr =>
      obtain ⟨rows₁, c₁⟩ := pr
      simp only []
      cases h₂ : normalize_curve_points c₁ rest with
      | error e =>
        have := ih c₁ hall.2
        rw [h₂] at this
        cases this
      | ok pr₂ =>
        obtain ⟨rows₂, c₂⟩ := pr₂
        rfl

/-- On a well-formed tree `normalize_parameters` never raises. -/
theorem normalize_parameters_ok :
    ∀ relays : List PyVal, wfTree relays = true →
      exOk (normalize_parameters relays) = true := by
  intro relays
  induction relays with
  | nil => intro _; rfl
  | cons relay rest ih =>
    intro hall
    rw [wfTree, List.all_cons, Bool.and_eq_true] at hall
    rw [normalize_parameters]
    cases h₁ : params_relay relay with
    | error e =>
      have := params_relay_ok relay hall.1
      rw [h₁] at this
      cases this
    | ok rows₁ =>
      cases h₂ : normalize_parameters rest with
      | error e =>
        have := ih hall.2
        rw [h₂] at this
        cases this
      | ok rows₂ => rfl

/-- On a well-formed tree `normalize_selectivity` never raises. -/
theorem normalize_selectivity_ok :
    ∀ relays : List PyVal, wfTree relays = true →
      exOk (normalize_selectivity relays) = true := by
  intro relays
  induction relays with
  | nil => intro _; rfl
  | cons relay rest ih =>
    intro hall
    rw [wfTree, List.all_cons, Bool.and_eq_true] at hall
    rw [normalize_selectivity]
    cases h₁ : sel_relay relay with
    | error e =>
      have := sel_relay_ok relay hall.1
      rw [h₁] at this
      cases this
    | ok rows₁ =>
      cases h₂ : normalize_selectivity rest with
      | error e =>
        have := ih hall.2
        rw [h₂] at this
        cases this
      | ok rows₂ => rfl

/-- Claim C9 (amended): the extractors skip non-dictionary child nodes
and absent blocks without raising, but only on structurally well-formed
trees - every relay a dictionary whose `CTs`, `VTs`, `Parameters` and
`ProtectionFunctions` blocks are dictionaries when truthy, and every
function node's `Settings`, `CurvePoints` and `Selectivity` blocks
likewise well shaped.  On such a tree all eight record-set extractors
return a value (no `AttributeError`), whatever the identifier-counter
state; the unamended claim fails because a truthy non-dictionary block,
e.g. a `CTs` carrying text, raises `AttributeError` instead of being
skipped (see the counterexample theorem). -/
theorem C9_wellformed_tree_no_raise (relays : List PyVal) (h : wfTree relays = true) :
    exOk (normalize_cts relays) = true ∧
    (∀ c : Counters, exOk (normalize_vts c relays) = true) ∧
    exOk (normalize_functions relays) = true ∧
    exOk (normalize_function_settings relays) = true ∧
    (∀ c : Counters, exOk (normalize_function_curves c relays) = true) ∧
    (∀ c : Counters, exOk (normalize_curve_points c relays) = true) ∧
    exOk (normalize_parameters relays) = true ∧
    exOk (normalize_selectivity relays) = true :=
  ⟨normalize_cts_ok relays h,
   fun c => normalize_vts_ok relays c h,
   normalize_functions_ok relays h,
   normalize_function_settings_ok relays h,
   fun c => normalize_function_curves_ok relays c h,
   fun c => normalize_curve_points_ok relays c h,
   normalize_parameters_ok relays h,
   normalize_selectivity_ok relays h⟩

/-- Witness for Claim C9 on a concrete well-formed tree that exercises
the skipping paths: a stray string among the CT nodes, a string among
the function nodes, absent blocks, and a second relay with no blocks at
all. -/
theorem C9_wellformed_tree_no_raise_witness :
    wfTree exC9w = true ∧
    exOk (normalize_cts exC9w) = true ∧
    exOk (normalize_vts Counters.start exC9w) = true ∧
    exOk (normalize_function_settings exC9w) = true ∧
    exOk (normalize_curve_points Counters.start exC9w) = true ∧
    exOk (normalize_selectivity exC9w) = true :=
  ⟨rfl,
   (C9_wellformed_tree_no_raise exC9w rfl).1,
   (C9_wellformed_tree_no_raise exC9w rfl).2.1 Counters.start,
   (C9_wellformed_tree_no_raise exC9w rfl).2.2.2.1,
   (C9_wellformed_tree_no_raise exC9w rfl).2.2.2.2.2.1 Counters.start,
   (C9_wellformed_tree_no_raise exC9w rfl).2.2.2.2.2.2.2⟩

end LeXml
